import Mathlib

/-!
# go-flow: a shallow embedding of the Flow payment client

The development follows the Go package file by file: the canonical signer and the
request builder of request.go, the response classification of Client.do, the
resource accessors of payment.go and refund.go and the four webhook confirmation
handlers of callback.go.

Conventions of the embedding.

* A Go string is a sequence of bytes, so it is embedded as a list of byte values.
  Comparison of Go strings is byte-wise lexicographic, which is the order of lists.
* A Go map is embedded as an association list without repeated keys.  The order of
  the list stands for the (unspecified) iteration order of the map, and results that
  do not depend on it are proved for every order.
* Library code the package calls but does not contain (HMAC-SHA256, the HTTP
  round trip, the JSON decoder) is a parameter of the functions that use it.
* A function that performs calls observable from outside returns the list of these
  calls (a trace) together with its result.
-/

namespace Flow

/-! ## Strings and values -/

/-- Go string: a sequence of bytes. -/
abbrev GoString := List Nat

/-- Bytes of an ASCII literal. -/
def str (s : String) : GoString := s.data.map Char.toNat

/-- Dynamic values stored in a parameter map (Go interface values): the package stores
strings, signed integers and unsigned integers. -/
inductive Value where
  | string (s : GoString)
  | int (i : Int)
  | uint (n : Nat)
  deriving DecidableEq, Repr

/-- Result of fmt.Sprintf("%v", v): a string prints as itself, an integer in decimal. -/
def Value.format : Value → GoString
  | Value.string s => s
  | Value.int i => str (toString i)
  | Value.uint n => str (toString n)

/-- Parameter map, map[string]interface{} in the source. -/
abbrev GoMap := List (GoString × Value)

/-- Keys of a map in iteration order. -/
def GoMap.keys (m : GoMap) : List GoString := m.map Prod.fst

/-- Map invariant: no key occurs twice. -/
def GoMap.WF (m : GoMap) : Prop := m.keys.Nodup

instance (m : GoMap) : Decidable m.WF := inferInstanceAs (Decidable m.keys.Nodup)

/-- Map assignment m[k] = v. -/
def GoMap.set (m : GoMap) (k : GoString) (v : Value) : GoMap :=
  (k, v) :: m.filter (fun p => decide (p.1 ≠ k))

/-- Formatting of the map read data[key] with the verb %v; a missing key reads as the nil
interface value. -/
def fmtLookup (data : GoMap) (key : GoString) : GoString :=
  match data.lookup key with
  | some v => v.format
  | none => str "<nil>"

/-! ## client.go -/

/-- Base URL of the production service. -/
def ProductionURL : GoString := str "https://www.flow.cl/api"

/-- Base URL of the sandbox service. -/
def SandboxURL : GoString := str "https://sandbox.flow.cl/api"

/-- Client of client.go. -/
structure Client where
  APIKey : GoString
  SecretKey : GoString
  URL : GoString
  deriving DecidableEq, Repr

/-- NewClient of client.go: sandbox mode by default. -/
def NewClient (apiKey secretKey : GoString) : Client :=
  { APIKey := apiKey, SecretKey := secretKey, URL := SandboxURL }

/-- SetProduction of client.go. -/
def Client.SetProduction (c : Client) : Client := { c with URL := ProductionURL }

/-- SetSandbox of client.go. -/
def Client.SetSandbox (c : Client) : Client := { c with URL := SandboxURL }

/-! ## request.go: the canonical signer -/

/-- HMAC-SHA256 as an abstract function from key and message to the digest bytes. -/
abbrev Hmac := GoString → GoString → List Nat

/-- One lowercase hexadecimal digit. -/
def hexDigit (n : Nat) : Nat := if n < 10 then 48 + n else 87 + n

/-- Result of fmt.Sprintf("%x", bytes): two lowercase hexadecimal digits per byte. -/
def hexEncode : List Nat → GoString
  | [] => []
  | b :: bs => hexDigit (b / 16 % 16) :: hexDigit (b % 16) :: hexEncode bs

/-- Specification of lowercase hexadecimal: every byte is written as two digits, the high
half first, each digit taken at its value from the alphabet 0123456789abcdef. -/
def lowerHexSpec (bytes : List Nat) : GoString :=
  bytes.flatMap (fun b =>
    [(str "0123456789abcdef").getD (b / 16 % 16) 0, (str "0123456789abcdef").getD (b % 16) 0])

/-- Specification of the decimal numeral of a natural number: the digits of the number in
base ten, most significant first, each written as the character 0 plus the digit; the
numeral of zero is the single digit 0. -/
def decimalSpec (n : Nat) : GoString :=
  if n = 0 then [48] else (Nat.digits 10 n).reverse.map (fun d => 48 + d)

/-- Specification of the string form of a value: a string stands for itself, an integer for
its decimal numeral, with a leading minus sign when it is negative. -/
def stringFormSpec : Value → GoString
  | Value.string s => s
  | Value.int i => if i < 0 then 45 :: decimalSpec i.natAbs else decimalSpec i.natAbs
  | Value.uint n => decimalSpec n

/-- Function hmac256Sign of request.go. -/
def hmac256Sign (H : Hmac) (message secret : GoString) : GoString :=
  hexEncode (H secret message)

/-- Library function sort.Strings: ascending byte-wise order. -/
def sortStrings (l : List GoString) : List GoString :=
  l.insertionSort (fun a b => a ≤ b)

/-- Function sortMapKeys of request.go. -/
def sortMapKeys (m : GoMap) : List GoString :=
  sortStrings m.keys

/-- Method signData of request.go. -/
def Client.signData (H : Hmac) (c : Client) (data : GoMap) : GoString :=
  let ordered := sortMapKeys data
  let hashValues := ordered.foldl (fun acc key => acc ++ (key ++ fmtLookup data key)) []
  hmac256Sign H hashValues c.SecretKey

/-- Sample HMAC stand-in used to instantiate examples: the key followed by the message. -/
def sampleHmac : Hmac := fun key message => key ++ message

/-- Sample client used to instantiate examples. -/
def sampleClient : Client := NewClient (str "key") (str "secret")

/-- Sample parameter map with a string, an unsigned and a negative signed value, its names
not in ascending order. -/
def sampleParams : GoMap :=
  [(str "token", Value.string (str "abc")), (str "amount", Value.uint 1000),
   (str "flowOrder", Value.int (-5))]

/-! ## Library models: path.Clean, path.Join, url.Parse, url.Values -/

/-- Elements of a path between slashes (byte 47). -/
def splitSlash : GoString → List GoString
  | [] => [[]]
  | b :: bs =>
    if b = 47 then [] :: splitSlash bs
    else
      match splitSlash bs with
      | [] => [[b]]
      | s :: ss => (b :: s) :: ss

/-- One element processed by path.Clean, the elements kept so far being acc (last kept
first): an empty element and a dot element are dropped; a dot-dot element removes the
element kept last, is dropped at the root of a rooted path, and is kept at the start of a
path that is not rooted; any other element is kept. -/
def cleanStep (rooted : Bool) (acc : List GoString) (seg : GoString) : List GoString :=
  if seg = [] ∨ seg = str "." then acc
  else if seg = str ".." then
    match acc with
    | [] => if rooted then [] else [seg]
    | top :: rest => if top = str ".." then seg :: acc else rest
  else seg :: acc

/-- Library function path.Clean: the shortest equivalent path, by its documented rules. -/
def pathClean (p : GoString) : GoString :=
  if p = [] then str "."
  else
    let rooted := decide (p.head? = some 47)
    let segs := ((splitSlash p).foldl (cleanStep rooted) []).reverse
    let out := (if rooted then [47] else []) ++ [47].intercalate segs
    if out = [] then str "." else out

/-- Library function path.Join for two elements: empty elements are ignored, the rest is
joined with a slash and cleaned. -/
def pathJoin (a b : GoString) : GoString :=
  if a ≠ [] then pathClean (a ++ [47] ++ b)
  else if b ≠ [] then pathClean b
  else []

/-- Type url.URL: the fields the package reads or writes. -/
structure URL where
  Scheme : GoString
  Host : GoString
  Path : GoString
  RawQuery : GoString
  deriving DecidableEq, Repr

/-- ASCII letter. -/
def isLetter (b : Nat) : Bool := (97 ≤ b && b ≤ 122) || (65 ≤ b && b ≤ 90)

/-- ASCII digit. -/
def isDigit (b : Nat) : Bool := 48 ≤ b && b ≤ 57

/-- Lower-case form of an ASCII byte. -/
def toLowerByte (b : Nat) : Nat := if 65 ≤ b ∧ b ≤ 90 then b + 32 else b

/-- Scheme of a raw URL and what follows its colon: the scheme is a letter followed by
letters, digits, plus, minus and dot. -/
def getScheme : GoString → Option (GoString × GoString)
  | [] => none
  | b :: bs =>
    if isLetter b then
      let body := bs.takeWhile (fun x => isLetter x || isDigit x || x = 43 || x = 45 || x = 46)
      match bs.dropWhile (fun x => isLetter x || isDigit x || x = 43 || x = 45 || x = 46) with
      | 58 :: rest => some (b :: body, rest)
      | _ => none
    else none

/-- Bytes of a host name the model accepts: letters, digits, minus and dot. -/
def isHostByte (b : Nat) : Bool := isLetter b || isDigit b || b = 45 || b = 46

/-- Bytes of a path the model accepts: letters, digits, minus, dot, underscore, tilde and
slash. None of them is escaped, so the path is kept as written. -/
def isPathByte (b : Nat) : Bool :=
  isLetter b || isDigit b || b = 45 || b = 46 || b = 95 || b = 126 || b = 47

/-- Library function url.Parse on absolute URLs of the shape scheme://host/path whose host
and path use the bytes above: the scheme is lower-cased, host and path are kept as written
and there is no query. The model is partial: the result none stands for any URL outside
this shape, be it one url.Parse rejects or one it accepts that the model does not cover (a
port, user information, a query of its own, the empty string). Both configured base URLs
are of this shape. -/
def urlParse (raw : GoString) : Option URL :=
  match getScheme raw with
  | some (scheme, 47 :: 47 :: rest) =>
    let host := rest.takeWhile (fun x => decide (x ≠ 47))
    let path := rest.dropWhile (fun x => decide (x ≠ 47))
    if host.all isHostByte ∧ path.all isPathByte then
      some { Scheme := scheme.map toLowerByte, Host := host, Path := path, RawQuery := [] }
    else none
  | _ => none

/-- Type url.Values, map[string][]string in the library. -/
abbrev Values := List (GoString × List GoString)

/-- Index expression v[key] with its presence flag. -/
def Values.index (v : Values) (key : GoString) : Option (List GoString) := v.lookup key

/-- Method Values.Get: the first value of the key, or the empty string. -/
def Values.Get (v : Values) (key : GoString) : GoString :=
  match v.lookup key with
  | some (x :: _) => x
  | _ => []

/-- Method Values.Set: the key gets the single value. -/
def Values.Set (v : Values) (key value : GoString) : Values :=
  (key, [value]) :: v.filter (fun p => decide (p.1 ≠ key))

/-- Library function copyValues of net/http: the values of src are appended to those of dst,
key by key. -/
def copyValues (dst src : Values) : Values :=
  src.foldl
    (fun d p => (p.1, (d.lookup p.1).getD [] ++ p.2) :: d.filter (fun q => decide (q.1 ≠ p.1)))
    dst

/-- One upper-case hexadecimal digit. -/
def upperHexDigit (n : Nat) : Nat := if n < 10 then 48 + n else 55 + n

/-- Library function url.QueryEscape: letters, digits, minus, underscore, dot and tilde are
kept, a space becomes a plus, any other byte becomes a percent sign and two upper-case
hexadecimal digits. -/
def queryEscape : GoString → GoString
  | [] => []
  | b :: bs =>
    if isLetter b || isDigit b || b = 45 || b = 95 || b = 46 || b = 126 then b :: queryEscape bs
    else if b = 32 then 43 :: queryEscape bs
    else 37 :: upperHexDigit (b / 16 % 16) :: upperHexDigit (b % 16) :: queryEscape bs

/-- Method Values.Encode: key=value pairs, escaped, sorted by key and joined by an
ampersand. -/
def Values.Encode (v : Values) : GoString :=
  let keys := sortStrings (v.map Prod.fst)
  let pairs := keys.flatMap (fun k =>
    ((v.lookup k).getD []).map (fun x => queryEscape k ++ str "=" ++ queryEscape x))
  (str "&").intercalate pairs

/-- Library function url.ParseQuery on the empty query string, the only one the URLs of
urlParse carry; none stands for a query outside the model. -/
def parseQuery (raw : GoString) : Option Values :=
  if raw = [] then some [] else none

/-- Pieces of a string between the occurrences of the byte sep. -/
def splitOn (sep : Nat) : GoString → List GoString
  | [] => [[]]
  | b :: bs =>
    if b = sep then [] :: splitOn sep bs
    else
      match splitOn sep bs with
      | [] => [[b]]
      | s :: ss => (b :: s) :: ss

/-- Specification of the entries of a query string or form body: its non-empty pieces
between ampersands (byte 38), each cut at its first equals sign (byte 61) into a name and a
value, both as they stand on the wire, that is escaped. -/
def queryEntriesSpec (q : GoString) : List (GoString × GoString) :=
  ((splitOn 38 q).filter (fun piece => decide (piece ≠ []))).map
    (fun piece =>
      (piece.takeWhile (fun b => decide (b ≠ 61)),
       (piece.dropWhile (fun b => decide (b ≠ 61))).drop 1))

/-! ## request.go: the request builder -/

/-- Method buildGET of request.go. The result none means that the base URL of the client is
outside the shape urlParse covers, so that the model has no URL to work on; this includes
the base URLs url.Parse rejects, on which the source drops the error and dereferences a nil
URL. -/
def Client.buildGET (H : Hmac) (c : Client) (endpoint : GoString) (data : GoMap) :
    Option Flow.URL :=
  let data := data.set (str "apiKey") (Value.string c.APIKey)
  match urlParse c.URL with
  | none => none
  | some rqURL =>
    let rqURL := { rqURL with Path := pathJoin rqURL.Path endpoint }
    match parseQuery rqURL.RawQuery with
    | none => none
    | some query =>
      let query := query.Set (str "s") (c.signData H data)
      let query := data.foldl (fun q p => q.Set p.1 p.2.format) query
      some { rqURL with RawQuery := query.Encode }

/-- Method buildPOST of request.go. The result none is as for buildGET. -/
def Client.buildPOST (H : Hmac) (c : Client) (endpoint : GoString) (data : GoMap) :
    Option (Flow.URL × GoString) :=
  let data := data.set (str "apiKey") (Value.string c.APIKey)
  match urlParse c.URL with
  | none => none
  | some rqURL =>
    let rqURL := { rqURL with Path := pathJoin rqURL.Path endpoint }
    let form : Values := []
    let form := form.Set (str "s") (c.signData H data)
    let form := data.foldl (fun f p => f.Set p.1 p.2.format) form
    some (rqURL, form.Encode)

/-! ## request.go: transport and response classification -/

/-- Go error values: one made by errors.New, fmt.Errorf or a library, or one made by
errors.Wrap around a cause. -/
inductive Err where
  | new (msg : GoString)
  | wrap (cause : Err) (msg : GoString)
  deriving DecidableEq, Repr

/-- Method Error of an error value; a wrapped error prints its message, a colon and its
cause. -/
def Err.Error : Err → GoString
  | Err.new msg => msg
  | Err.wrap cause msg => msg ++ str ": " ++ cause.Error

/-- Outcome of an accessor: Result.ok a stands for the return (a, nil) and Result.err e for
the return (nil, e). Result.noURL means that the builder had no URL to work on, the base URL
of the client being outside the shape urlParse covers: for a base URL url.Parse rejects the
source panics at this point, for any other the model does not follow the run further. -/
inductive Result (α : Type) where
  | ok (a : α)
  | err (e : Err)
  | noURL
  deriving DecidableEq, Repr

/-- Type requestError of request.go. -/
structure requestError where
  Message : GoString
  Code : Int
  deriving DecidableEq, Repr

/-- HTTP response as Client.do reads it: status line, status code and the outcome of reading
the body to its end. -/
structure Response where
  Status : GoString
  StatusCode : Int
  Body : Except Err GoString

/-- Type Order of order.go: the scalar fields. The nested records Optional, PendingInfo and
PaymentData are read by no function of the package and are left out. -/
structure Order where
  FlowOrder : Int
  CommerceOrder : GoString
  RequestDate : GoString
  Status : Int
  Subject : GoString
  Currency : GoString
  Amount : GoString
  PayerEmail : GoString
  MerchantID : GoString
  deriving DecidableEq, Repr

/-- Constant OrderStatusAwaitingPayment of order.go. -/
def OrderStatusAwaitingPayment : Int := 1

/-- Constant OrderStatusPayed of order.go. -/
def OrderStatusPayed : Int := 2

/-- Constant OrderStatusRejected of order.go. -/
def OrderStatusRejected : Int := 3

/-- Constant OrderStatusCanceled of order.go. -/
def OrderStatusCanceled : Int := 4

/-- Type RefundStatus of refund.go. -/
structure RefundStatus where
  Token : GoString
  RefundOrder : GoString
  Date : GoString
  Status : GoString
  Amount : Nat
  Fee : Nat
  deriving DecidableEq, Repr

/-- Constant RefundStatusCreated of refund.go. -/
def RefundStatusCreated : GoString := str "created"

/-- Constant RefundStatusAccepted of refund.go. -/
def RefundStatusAccepted : GoString := str "accepted"

/-- Constant RefundStatusRejected of refund.go. -/
def RefundStatusRejected : GoString := str "rejected"

/-- Constant RefundStatusRefunded of refund.go. -/
def RefundStatusRefunded : GoString := str "refunded"

/-- Constant RefundStatusCanceled of refund.go. -/
def RefundStatusCanceled : GoString := str "canceled"

/-- Type OrderResponse of payment.go. -/
structure OrderResponse where
  FlowID : Int
  Token : GoString
  URL : GoString
  deriving DecidableEq, Repr

/-- Calls observable from outside the package, in the order they are made: the construction
of a request, its round trip, the call of WriteHeader on the http.ResponseWriter of the
inbound request, and the calls of the callback. The event noURL marks the point where the
model stops because the builder had no URL (see Result.noURL). -/
inductive Event where
  | newRequest (method : GoString) (url : URL) (body : Option GoString)
  | send (method : GoString) (url : URL) (contentType : GoString) (body : Option GoString)
  | writeStatus (code : Nat)
  | onAcceptedOrder (o : Order)
  | onAcceptedRefund (r : RefundStatus)
  | noURL
  deriving DecidableEq, Repr

/-- The libraries and the remote service the package talks to: HMAC-SHA256, the constructor
http.NewRequest (its error, if any), the round trip of http.Client.Do, and the JSON decoder
at each type it is used at. -/
structure Env where
  hmac : Hmac
  newRequest : GoString → URL → Option GoString → Option Err
  roundTrip : GoString → URL → Option GoString → Except Err Response
  unmarshalError : GoString → Except Err requestError
  unmarshalOrder : GoString → Except Err Order
  unmarshalRefundStatus : GoString → Except Err RefundStatus
  unmarshalOrderResponse : GoString → Except Err OrderResponse
  unmarshalEmailOrder : GoString → Except Err (Int × GoString)

/-- Body reader handed to http.NewRequest: none for the empty body. -/
def bodyReader (body : GoString) : Option GoString :=
  if body ≠ [] then some body else none

/-- Message of the error Client.do makes when the body of a failed response does not
decode. -/
def serverErrorMessage (resp : Response) : GoString :=
  str "server error: http error " ++ resp.Status ++ str " (" ++ str (toString resp.StatusCode)
    ++ str ")"

/-- Method do of request.go. The result Except.ok data stands for the return (data, nil) and
Except.error e for the return (nil, e). -/
def Client.doReq (env : Env) (_c : Client) (method : GoString) (rqURL : Flow.URL)
    (body : GoString) : List Event × Except Err GoString :=
  let built := Event.newRequest method rqURL (bodyReader body)
  match env.newRequest method rqURL (bodyReader body) with
  | some err => ([built], Except.error err)
  | none =>
    let sent := Event.send method rqURL (str "application/x-www-form-urlencoded")
      (bodyReader body)
    match env.roundTrip method rqURL (bodyReader body) with
    | Except.error err => ([built, sent], Except.error err)
    | Except.ok resp =>
      match resp.Body with
      | Except.error err => ([built, sent], Except.error err)
      | Except.ok data =>
        if resp.StatusCode < 200 ∨ resp.StatusCode > 299 then
          match env.unmarshalError data with
          | Except.error _ => ([built, sent], Except.error (Err.new (serverErrorMessage resp)))
          | Except.ok rqError => ([built, sent], Except.error (Err.new rqError.Message))
        else ([built, sent], Except.ok data)

/-- Method get of request.go. -/
def Client.get (env : Env) (c : Client) (rqURL : Flow.URL) : List Event × Except Err GoString :=
  c.doReq env (str "GET") rqURL []

/-- Method post of request.go. -/
def Client.post (env : Env) (c : Client) (rqURL : Flow.URL) (body : GoString) :
    List Event × Except Err GoString :=
  c.doReq env (str "POST") rqURL body

/-! ## payment.go and refund.go: the resource accessors -/

/-- Type OrderRequest of payment.go. -/
structure OrderRequest where
  CommerceOrder : GoString
  Subject : GoString
  Currency : GoString
  Amount : Nat
  PayerEmail : GoString
  PaymentMethod : Int
  ConfirmationURL : GoString
  ReturnURL : GoString
  TimeoutSeconds : Nat
  MerchantID : GoString
  PaymentCurrency : GoString
  deriving DecidableEq, Repr

/-- Method isValid of payment.go. -/
def OrderRequest.isValid (req : OrderRequest) : Bool :=
  if req.CommerceOrder = [] ∨ req.Subject = [] ∨ req.Amount = 0 ∨ req.PayerEmail = [] then
    false
  else true

/-- Entry of structs.Map for a field tagged omitempty: left out when the value is zero. -/
def omitEmpty (name : GoString) (v : Value) (isZero : Bool) : GoMap :=
  if isZero then [] else [(name, v)]

/-- Library function structs.Map at OrderRequest: one entry per field under the name of its
tag. -/
def OrderRequest.toMap (req : OrderRequest) : GoMap :=
  [(str "commerceOrder", Value.string req.CommerceOrder),
   (str "subject", Value.string req.Subject)]
  ++ omitEmpty (str "currency") (Value.string req.Currency) (decide (req.Currency = []))
  ++ [(str "amount", Value.uint req.Amount), (str "email", Value.string req.PayerEmail)]
  ++ omitEmpty (str "paymentMethod") (Value.int req.PaymentMethod)
      (decide (req.PaymentMethod = 0))
  ++ omitEmpty (str "urlConfirmation") (Value.string req.ConfirmationURL)
      (decide (req.ConfirmationURL = []))
  ++ omitEmpty (str "urlReturn") (Value.string req.ReturnURL) (decide (req.ReturnURL = []))
  ++ omitEmpty (str "timeout") (Value.uint req.TimeoutSeconds)
      (decide (req.TimeoutSeconds = 0))
  ++ omitEmpty (str "merchantId") (Value.string req.MerchantID)
      (decide (req.MerchantID = []))
  ++ omitEmpty (str "payment_currency") (Value.string req.PaymentCurrency)
      (decide (req.PaymentCurrency = []))

/-- Error returned for an order request that fails the local validation. -/
def invalidOrderRequest : Err :=
  Err.new (str "invalid order request: unfilled required values")

/-- Method GetOrder of payment.go. -/
def Client.GetOrder (env : Env) (c : Client) (token : GoString) : List Event × Result Order :=
  match c.buildGET env.hmac (str "/payment/getStatus") [(str "token", Value.string token)] with
  | none => ([Event.noURL], Result.noURL)
  | some url =>
    match c.get env url with
    | (tr, Except.error err) =>
      (tr, Result.err (Err.wrap err (str "unable to transact with the server")))
    | (tr, Except.ok data) =>
      match env.unmarshalOrder data with
      | Except.error err => (tr, Result.err (Err.wrap err (str "unable to parse response")))
      | Except.ok order => (tr, Result.ok order)

/-- Method GetRefundStatus of refund.go. -/
def Client.GetRefundStatus (env : Env) (c : Client) (token : GoString) :
    List Event × Result RefundStatus :=
  match c.buildGET env.hmac (str "/refund/getStatus") [(str "token", Value.string token)] with
  | none => ([Event.noURL], Result.noURL)
  | some url =>
    match c.get env url with
    | (tr, Except.error err) =>
      (tr, Result.err (Err.wrap err (str "unable to transact with the server")))
    | (tr, Except.ok data) =>
      match env.unmarshalRefundStatus data with
      | Except.error err => (tr, Result.err (Err.wrap err (str "unable to parse response")))
      | Except.ok status => (tr, Result.ok status)

/-- Method CreateOrder of payment.go. -/
def Client.CreateOrder (env : Env) (c : Client) (req : OrderRequest) :
    List Event × Result OrderResponse :=
  if !req.isValid then ([], Result.err invalidOrderRequest)
  else
    match c.buildPOST env.hmac (str "/payment/create") req.toMap with
    | none => ([Event.noURL], Result.noURL)
    | some (url, body) =>
      match c.post env url body with
      | (tr, Except.error err) =>
        (tr, Result.err (Err.wrap err (str "unable to transact with the server")))
      | (tr, Except.ok data) =>
        match env.unmarshalOrderResponse data with
        | Except.error err => (tr, Result.err (Err.wrap err (str "unable to parse response")))
        | Except.ok result => (tr, Result.ok result)

/-- Return values of CreateEmailOrder: the order ID, the token and the error; noURL is as
in Result. -/
inductive EmailOrderResult where
  | ret (orderID : Int) (token : GoString) (err : Option Err)
  | noURL
  deriving DecidableEq, Repr

/-- Method CreateEmailOrder of payment.go. -/
def Client.CreateEmailOrder (env : Env) (c : Client) (req : OrderRequest) :
    List Event × EmailOrderResult :=
  if !req.isValid then ([], EmailOrderResult.ret (-1) [] (some invalidOrderRequest))
  else
    match c.buildPOST env.hmac (str "/payment/createEmail") req.toMap with
    | none => ([Event.noURL], EmailOrderResult.noURL)
    | some (url, body) =>
      match c.post env url body with
      | (tr, Except.error err) =>
        (tr, EmailOrderResult.ret (-1) []
          (some (Err.wrap err (str "unable to transact with the server"))))
      | (tr, Except.ok data) =>
        match env.unmarshalEmailOrder data with
        | Except.error err =>
          (tr, EmailOrderResult.ret (-1) []
            (some (Err.wrap err (str "unable to parse response"))))
        | Except.ok result => (tr, EmailOrderResult.ret result.1 result.2 none)

/-! ## callback.go: the webhook confirmation handlers -/

/-- Constant http.StatusOK. -/
def StatusOK : Nat := 200

/-- Constant http.StatusAccepted. -/
def StatusAccepted : Nat := 202

/-- Constant http.StatusBadRequest. -/
def StatusBadRequest : Nat := 400

/-- Constant http.StatusUnauthorized. -/
def StatusUnauthorized : Nat := 401

/-- Constant http.StatusInternalServerError. -/
def StatusInternalServerError : Nat := 500

/-- Type http.Request as a handler sees it. The fields bodyForm and bodyErr are what reading
the form body yields, queryForm and queryErr what parsing the URL query yields. The fields
Form and PostForm are those of http.Request: they are nil (none) until ParseForm has run and
are filled by it. -/
structure Request where
  bodyForm : Values
  bodyErr : Option Err
  queryForm : Values
  queryErr : Option Err
  Form : Option Values
  PostForm : Option Values
  deriving DecidableEq, Repr

/-- Library method Request.ParseForm: PostForm is read from the body unless already set;
Form is filled, unless already set, with the body values followed by the values of the URL
query; the first error met is returned. -/
def Request.ParseForm (r : Request) : Request × Option Err :=
  let post : Values × Option Err :=
    match r.PostForm with
    | some pf => (pf, none)
    | none => (r.bodyForm, r.bodyErr)
  match r.Form with
  | some form => ({ r with PostForm := some post.1, Form := some form }, post.2)
  | none =>
    let form :=
      if post.1.length > 0 then copyValues (copyValues [] post.1) r.queryForm
      else r.queryForm
    let err := if post.2 = none then r.queryErr else post.2
    ({ r with PostForm := some post.1, Form := some form }, err)

/-- Index expression m[key] on a map field that may be nil. -/
def indexNilable (m : Option Values) (key : GoString) : Option (List GoString) :=
  match m with
  | none => none
  | some v => v.index key

/-- Step of a gin handler: a call observable from outside, or the call ctx.Status(code),
which only records the code in the context and writes nothing to the response. -/
inductive GinStep where
  | call (e : Event)
  | status (code : Nat)
  deriving DecidableEq, Repr

/-- Calls a gin handler makes, in order. -/
def ginCalls : List GinStep → List Event
  | [] => []
  | GinStep.call e :: rest => e :: ginCalls rest
  | GinStep.status _ :: rest => ginCalls rest

/-- Status code the context holds when the handler is over: the one recorded last. -/
def ginRecorded : List GinStep → Option Nat
  | [] => none
  | GinStep.call _ :: rest => ginRecorded rest
  | GinStep.status code :: rest =>
    match ginRecorded rest with
    | some later => some later
    | none => some code

/-- Library model of gin serving a request with one handler: the calls of the handler
happen as it runs, and once it has returned the engine calls WriteHeader with the status
code recorded in the context. A run without a recorded code is one the model stopped at
noURL, and nothing is written for it (every path on which these handlers return calls
ctx.Status). -/
def ginServe (steps : List GinStep) : List Event :=
  match ginRecorded steps with
  | some code => ginCalls steps ++ [Event.writeStatus code]
  | none => ginCalls steps

/-- Method GinOrderConfirmationCallback of callback.go, served by gin on a request. -/
def Client.GinOrderConfirmationCallback (env : Env) (c : Client) (r : Request) : List Event :=
  ginServe
    (match indexNilable r.PostForm (str "token") with
    | none => [GinStep.status StatusBadRequest]
    | some tokens =>
      match tokens with
      | [token] =>
        match c.GetOrder env token with
        | (tr, Result.err _) =>
          tr.map GinStep.call ++ [GinStep.status StatusInternalServerError]
        | (tr, Result.noURL) => tr.map GinStep.call
        | (tr, Result.ok order) =>
          if order.Status = OrderStatusPayed then
            tr.map GinStep.call
              ++ [GinStep.status StatusAccepted, GinStep.call (Event.onAcceptedOrder order)]
          else tr.map GinStep.call ++ [GinStep.status StatusUnauthorized]
      | _ => [GinStep.status StatusBadRequest])

/-- Method HTTPOrderConfirmationCallback of callback.go, applied to a request; the call
w.WriteHeader(code) is the event writeStatus. -/
def Client.HTTPOrderConfirmationCallback (env : Env) (c : Client) (r : Request) : List Event :=
  match r.ParseForm with
  | (_, some _) => [Event.writeStatus StatusBadRequest]
  | (r, none) =>
    let token := (r.Form.getD []).Get (str "token")
    if token = [] then [Event.writeStatus StatusBadRequest]
    else
      match c.GetOrder env token with
      | (tr, Result.err _) => tr ++ [Event.writeStatus StatusInternalServerError]
      | (tr, Result.noURL) => tr
      | (tr, Result.ok order) =>
        if order.Status = OrderStatusPayed then
          tr ++ [Event.writeStatus StatusOK, Event.onAcceptedOrder order]
        else tr ++ [Event.writeStatus StatusUnauthorized]

/-- Method GinRefundConfirmationCallback of callback.go, served by gin on a request. -/
def Client.GinRefundConfirmationCallback (env : Env) (c : Client) (r : Request) : List Event :=
  ginServe
    (match r.ParseForm with
    | (_, some _) => [GinStep.status StatusBadRequest]
    | (r, none) =>
      match indexNilable r.Form (str "token") with
      | none => [GinStep.status StatusBadRequest]
      | some tokens =>
        match tokens with
        | [token] =>
          match c.GetRefundStatus env token with
          | (tr, Result.err _) =>
            tr.map GinStep.call ++ [GinStep.status StatusInternalServerError]
          | (tr, Result.noURL) => tr.map GinStep.call
          | (tr, Result.ok refund) =>
            if refund.Status = RefundStatusAccepted ∨ refund.Status = RefundStatusRefunded then
              tr.map GinStep.call
                ++ [GinStep.status StatusOK, GinStep.call (Event.onAcceptedRefund refund)]
            else tr.map GinStep.call ++ [GinStep.status StatusUnauthorized]
        | _ => [GinStep.status StatusBadRequest])

/-- Method HTTPRefundConfirmationCallback of callback.go, applied to a request; the call
w.WriteHeader(code) is the event writeStatus. -/
def Client.HTTPRefundConfirmationCallback (env : Env) (c : Client) (r : Request) : List Event :=
  match r.ParseForm with
  | (_, some _) => [Event.writeStatus StatusBadRequest]
  | (r, none) =>
    let token := (r.Form.getD []).Get (str "token")
    if token = [] then [Event.writeStatus StatusBadRequest]
    else
      match c.GetRefundStatus env token with
      | (tr, Result.err _) => tr ++ [Event.writeStatus StatusInternalServerError]
      | (tr, Result.noURL) => tr
      | (tr, Result.ok refund) =>
        if refund.Status = RefundStatusAccepted ∨ refund.Status = RefundStatusRefunded then
          tr ++ [Event.writeStatus StatusAccepted, Event.onAcceptedRefund refund]
        else tr ++ [Event.writeStatus StatusUnauthorized]

/-! ## Observations on traces and sample inputs -/

/-- Status codes written to the response, in order. -/
def statusCodes : List Event → List Nat
  | [] => []
  | Event.writeStatus code :: es => code :: statusCodes es
  | _ :: es => statusCodes es

/-- Orders the order callback was invoked with, in order. -/
def orderCallbacks : List Event → List Order
  | [] => []
  | Event.onAcceptedOrder o :: es => o :: orderCallbacks es
  | _ :: es => orderCallbacks es

/-- Refund statuses the refund callback was invoked with, in order. -/
def refundCallbacks : List Event → List RefundStatus
  | [] => []
  | Event.onAcceptedRefund r :: es => r :: refundCallbacks es
  | _ :: es => refundCallbacks es

/-- Requests to the remote service that were built or sent, in order. -/
def upstreamCalls : List Event → List Event
  | [] => []
  | Event.newRequest m u b :: es => Event.newRequest m u b :: upstreamCalls es
  | Event.send m u t b :: es => Event.send m u t b :: upstreamCalls es
  | _ :: es => upstreamCalls es

/-- Effects of a handler towards the notifier and the caller: the status codes written to
the response and the callbacks invoked, in the order they happen. -/
def effects : List Event → List Event
  | [] => []
  | Event.writeStatus code :: es => Event.writeStatus code :: effects es
  | Event.onAcceptedOrder o :: es => Event.onAcceptedOrder o :: effects es
  | Event.onAcceptedRefund r :: es => Event.onAcceptedRefund r :: effects es
  | _ :: es => effects es

/-- Inbound webhook request as the server hands it to a handler: a POST whose form body has
the single field token with the given values (no field at all when there is no value), no
URL query, and the fields Form and PostForm not yet filled. -/
def notification (tokens : List GoString) : Request :=
  { bodyForm := if tokens = [] then [] else [(str "token", tokens)]
    bodyErr := none
    queryForm := []
    queryErr := none
    Form := none
    PostForm := none }

/-- Sample order with the given status. -/
def sampleOrder (status : Int) : Order :=
  { FlowOrder := 7, CommerceOrder := str "123123", RequestDate := [], Status := status,
    Subject := str "Test Order", Currency := str "CLP", Amount := str "1000",
    PayerEmail := str "example@example.com", MerchantID := [] }

/-- Sample refund with the given status. -/
def sampleRefund (status : GoString) : RefundStatus :=
  { Token := str "abc", RefundOrder := str "9", Date := [], Status := status, Amount := 1000,
    Fee := 0 }

/-- Sample environment: every request is answered with the given status code and line and an
empty body, which decodes to the sample order and refund of the given statuses; a failed
response carries no decodable error. -/
def sampleEnv (code : Int) (line : GoString) (orderStatus : Int) (refundStatus : GoString) :
    Env :=
  { hmac := sampleHmac
    newRequest := fun _ _ _ => none
    roundTrip := fun _ _ _ => Except.ok { Status := line, StatusCode := code, Body := Except.ok [] }
    unmarshalError := fun _ => Except.error (Err.new (str "unexpected end of input"))
    unmarshalOrder := fun _ => Except.ok (sampleOrder orderStatus)
    unmarshalRefundStatus := fun _ => Except.ok (sampleRefund refundStatus)
    unmarshalOrderResponse := fun _ =>
      Except.ok { FlowID := 7, Token := str "abc", URL := str "https://sandbox.flow.cl/pay" }
    unmarshalEmailOrder := fun _ => Except.ok (7, str "abc") }

/-- Sample environment in which the remote service cannot be reached. -/
def unreachableEnv : Env :=
  { sampleEnv 200 (str "200 OK") 2 (str "accepted") with
    roundTrip := fun _ _ _ => Except.error (Err.new (str "connection refused")) }

/-- Sample order request with all mandatory fields set. -/
def sampleOrderRequest : OrderRequest :=
  { CommerceOrder := str "123123", Subject := str "Test Order", Currency := [], Amount := 1000,
    PayerEmail := str "example@example.com", PaymentMethod := 0,
    ConfirmationURL := str "http://example.com/confirmation",
    ReturnURL := str "http://example.com/return", TimeoutSeconds := 0, MerchantID := [],
    PaymentCurrency := [] }

/-! ## The canonical signer (request.go) -/

theorem foldl_append_eq_flatten (f : GoString → GoString) (ks : List GoString) (acc : GoString) :
    ks.foldl (fun a k => a ++ f k) acc = acc ++ (ks.map f).flatten := by
  induction ks generalizing acc with
  | nil => simp
  | cons k ks ih => simp [ih, List.append_assoc]

theorem sortStrings_perm (l : List GoString) : (sortStrings l).Perm l :=
  List.perm_insertionSort _ l

theorem sortStrings_sorted (l : List GoString) : (sortStrings l).Sorted (fun a b => a ≤ b) :=
  List.sorted_insertionSort _ l

theorem sortStrings_eq_of_perm {l₁ l₂ : List GoString} (h : l₁.Perm l₂) :
    sortStrings l₁ = sortStrings l₂ :=
  List.eq_of_perm_of_sorted
    ((sortStrings_perm l₁).trans (h.trans (sortStrings_perm l₂).symm))
    (sortStrings_sorted l₁) (sortStrings_sorted l₂)

theorem sortStrings_eq_self_of_sorted {l₁ l₂ : List GoString} (h : l₂.Perm l₁)
    (hs : l₂.Sorted (fun a b => a ≤ b)) : sortStrings l₁ = l₂ :=
  List.eq_of_perm_of_sorted ((sortStrings_perm l₁).trans h.symm) (sortStrings_sorted l₁) hs

theorem lookup_of_mem {m : GoMap} (hwf : m.WF) {k : GoString} {v : Value}
    (h : (k, v) ∈ m) : m.lookup k = some v := by
  induction m with
  | nil => simp at h
  | cons p m ih =>
    obtain ⟨k', v'⟩ := p
    simp only [GoMap.WF, GoMap.keys, List.map_cons, List.nodup_cons] at hwf
    rcases List.mem_cons.1 h with heq | hmem
    · cases heq
      simp
    · have hne : k ≠ k' := by
        rintro rfl
        exact hwf.1 (List.mem_map_of_mem Prod.fst hmem)
      rw [List.lookup_cons]
      have : (k == k') = false := by simpa using hne
      rw [this]
      exact ih hwf.2 hmem

theorem fmtLookup_of_mem {m : GoMap} (hwf : m.WF) {p : GoString × Value}
    (h : p ∈ m) : fmtLookup m p.1 = p.2.format := by
  unfold fmtLookup
  rw [lookup_of_mem hwf (k := p.1) (v := p.2) h]

theorem mem_of_lookup {m : GoMap} {k : GoString} {v : Value} (h : m.lookup k = some v) :
    (k, v) ∈ m := by
  obtain ⟨l₁, l₂, rfl, _⟩ := List.lookup_eq_some_iff.1 h
  simp

theorem lookup_eq_of_perm {m₁ m₂ : GoMap} (h : m₁.Perm m₂) (hwf : m₁.WF) (k : GoString) :
    m₁.lookup k = m₂.lookup k := by
  have hwf₂ : m₂.WF := (h.map Prod.fst).nodup_iff.1 hwf
  cases h₁ : m₁.lookup k with
  | none =>
    cases h₂ : m₂.lookup k with
    | none => rfl
    | some v =>
      rw [lookup_of_mem hwf (h.symm.subset (mem_of_lookup h₂))] at h₁
      cases h₁
  | some v => exact (lookup_of_mem hwf₂ (h.subset (mem_of_lookup h₁))).symm

theorem hexDigit_mem (n : Nat) (h : n < 16) : hexDigit n ∈ str "0123456789abcdef" := by
  revert n
  decide

theorem hexEncode_mem (l : List Nat) : ∀ b ∈ hexEncode l, b ∈ str "0123456789abcdef" := by
  induction l with
  | nil => simp [hexEncode]
  | cons x xs ih =>
    intro b hb
    simp only [hexEncode, List.mem_cons] at hb
    rcases hb with rfl | rfl | hb
    · exact hexDigit_mem _ (Nat.mod_lt _ (by decide))
    · exact hexDigit_mem _ (Nat.mod_lt _ (by decide))
    · exact ih b hb

theorem hexEncode_length (l : List Nat) : (hexEncode l).length = 2 * l.length := by
  induction l with
  | nil => rfl
  | cons x xs ih => simp [hexEncode, ih]; omega

/-- For every arrangement of the entries of the map by ascending name, signData is the
hexadecimal HMAC of the names and the string forms of their values, concatenated in that
arrangement with nothing in between. -/
theorem signData_eq_of_sorted_pairs (H : Hmac) (c : Client) (data : GoMap) (hwf : data.WF)
    (ps : List (GoString × Value)) (hperm : ps.Perm data)
    (hsorted : (ps.map Prod.fst).Sorted (fun a b => a ≤ b)) :
    c.signData H data
      = hexEncode (H c.SecretKey (ps.map (fun p => p.1 ++ p.2.format)).flatten) := by
  have hkeys : sortMapKeys data = ps.map Prod.fst :=
    sortStrings_eq_self_of_sorted (hperm.map Prod.fst) hsorted
  have hmap : (ps.map Prod.fst).map (fun k => k ++ fmtLookup data k)
      = ps.map (fun p => p.1 ++ p.2.format) := by
    rw [List.map_map]
    apply List.map_congr_left
    intro p hp
    simp only [Function.comp]
    rw [fmtLookup_of_mem hwf (hperm.subset hp)]
  simp only [Client.signData, hmac256Sign]
  rw [foldl_append_eq_flatten (fun k => k ++ fmtLookup data k), hkeys, hmap]
  simp

theorem hexDigit_eq_spec (n : Nat) (h : n < 16) :
    hexDigit n = (str "0123456789abcdef").getD n 0 := by
  revert n
  decide

/-- The output of the verb %x on bytes is their lowercase hexadecimal form as specified. -/
theorem hexEncode_eq_spec (l : List Nat) : hexEncode l = lowerHexSpec l := by
  induction l with
  | nil => rfl
  | cons b bs ih =>
    have h1 := hexDigit_eq_spec (b / 16 % 16) (Nat.mod_lt _ (by decide))
    have h2 := hexDigit_eq_spec (b % 16) (Nat.mod_lt _ (by decide))
    unfold lowerHexSpec at ih ⊢
    rw [List.flatMap_cons, ← ih, hexEncode, h1, h2]
    rfl

theorem digitChar_toNat (d : Nat) (h : d < 10) : (Nat.digitChar d).toNat = 48 + d := by
  revert d
  decide

theorem toDigitsCore_spec (fuel n : Nat) (ds : List Char) (h : n < fuel) :
    (Nat.toDigitsCore 10 fuel n ds).map Char.toNat = decimalSpec n ++ ds.map Char.toNat := by
  induction fuel generalizing n ds with
  | zero => omega
  | succ fuel ih =>
    unfold Nat.toDigitsCore
    simp only
    by_cases hq : n / 10 = 0
    · have hlt : n < 10 := by omega
      rw [if_pos hq]
      have hmod : n % 10 = n := Nat.mod_eq_of_lt hlt
      rw [hmod, List.map_cons, digitChar_toNat n hlt]
      unfold decimalSpec
      by_cases hn : n = 0
      · simp [hn]
      · rw [if_neg hn, Nat.digits_of_lt 10 n hn hlt]
        simp
    · rw [if_neg hq]
      have hn : 0 < n := by omega
      have hlt : n / 10 < fuel := by omega
      rw [ih (n / 10) _ hlt, List.map_cons, digitChar_toNat _ (Nat.mod_lt _ (by decide))]
      have hdig : Nat.digits 10 n = n % 10 :: Nat.digits 10 (n / 10) :=
        Nat.digits_def' (by decide) hn
      unfold decimalSpec
      rw [if_neg hq, if_neg (by omega), hdig]
      simp

theorem str_toString_nat (n : Nat) : str (toString n) = decimalSpec n := by
  have h := toDigitsCore_spec (n + 1) n [] (by omega)
  simpa [str, toString, Nat.repr, Nat.toDigits, List.asString] using h

theorem str_toString_int (i : Int) :
    str (toString i) = if i < 0 then 45 :: decimalSpec i.natAbs else decimalSpec i.natAbs := by
  cases i with
  | ofNat m =>
    have : ¬ (Int.ofNat m < 0) := by simp
    rw [if_neg this]
    exact str_toString_nat m
  | negSucc m =>
    have : Int.negSucc m < 0 := Int.negSucc_lt_zero m
    rw [if_pos this]
    have h := str_toString_nat (m + 1)
    show str ("-" ++ toString (m + 1)) = _
    simp only [str, String.data_append, List.map_append] at h ⊢
    rw [h]
    rfl

/-- The output of the verb %v on a value is its string form as specified. -/
theorem format_eq_spec (v : Value) : v.format = stringFormSpec v := by
  cases v with
  | string s => rfl
  | int i => exact str_toString_int i
  | uint n => exact str_toString_nat n

/-- Claim C1. For every secret and every parameter map, signData is the lowercase hexadecimal
form (two digits per byte from the alphabet 0123456789abcdef) of the HMAC, keyed by the
SecretKey of the client, of the string obtained from the entries of the map arranged by
strictly ascending name in byte-wise order (so every name occurs once), each name
immediately followed by the string form of its value (a string as it is, an integer as its
decimal numeral) with nothing in between. Hexadecimal form and string form are the
specifications lowerHexSpec and stringFormSpec, not the functions of the code. -/
theorem signData_canonical (H : Hmac) (c : Client) (data : GoMap) (hwf : data.WF) :
    ∃ ps : List (GoString × Value),
      ps.Perm data ∧ (ps.map Prod.fst).Sorted (fun a b => a < b) ∧
      c.signData H data
        = lowerHexSpec (H c.SecretKey (ps.map (fun p => p.1 ++ stringFormSpec p.2)).flatten) ∧
      (c.signData H data).length
        = 2 * (H c.SecretKey (ps.map (fun p => p.1 ++ stringFormSpec p.2)).flatten).length ∧
      ∀ b ∈ c.signData H data, b ∈ str "0123456789abcdef" := by
  haveI : IsTotal (GoString × Value) (fun p q => p.1 ≤ q.1) := ⟨fun p q => le_total p.1 q.1⟩
  haveI : IsTrans (GoString × Value) (fun p q => p.1 ≤ q.1) :=
    ⟨fun _ _ _ h₁ h₂ => le_trans h₁ h₂⟩
  let ps := data.insertionSort (fun p q => p.1 ≤ q.1)
  have hperm : ps.Perm data := List.perm_insertionSort _ data
  have hsorted : (ps.map Prod.fst).Sorted (fun a b => a ≤ b) := by
    have := List.sorted_insertionSort (fun p q : GoString × Value => p.1 ≤ q.1) data
    exact List.pairwise_map.2 this
  have hnodup : (ps.map Prod.fst).Nodup := ((hperm.map Prod.fst).nodup_iff).2 hwf
  have heq := signData_eq_of_sorted_pairs H c data hwf ps hperm hsorted
  have hform : (fun p : GoString × Value => p.1 ++ p.2.format)
      = (fun p => p.1 ++ stringFormSpec p.2) := by
    funext p
    rw [format_eq_spec]
  rw [hform] at heq
  refine ⟨ps, hperm, hsorted.lt_of_le hnodup, ?_, ?_, ?_⟩
  · rw [heq, hexEncode_eq_spec]
  · rw [heq, hexEncode_length]
  · intro b hb
    rw [heq] at hb
    exact hexEncode_mem _ b hb

/-- Witness of claim C1 on the sample parameter map, with the values the code and the
specifications take there: the names are hashed in the order amount, flowOrder, token, the
unsigned value as 1000 and the negative value as -5, and the sample HMAC (the key followed
by the message) comes out in lowercase hexadecimal digits. -/
theorem signData_canonical_witness :
    (∃ ps : List (GoString × Value),
      ps.Perm sampleParams ∧ (ps.map Prod.fst).Sorted (fun a b => a < b) ∧
      sampleClient.signData sampleHmac sampleParams
        = lowerHexSpec (sampleHmac sampleClient.SecretKey
            (ps.map (fun p => p.1 ++ stringFormSpec p.2)).flatten) ∧
      (sampleClient.signData sampleHmac sampleParams).length
        = 2 * (sampleHmac sampleClient.SecretKey
            (ps.map (fun p => p.1 ++ stringFormSpec p.2)).flatten).length ∧
      ∀ b ∈ sampleClient.signData sampleHmac sampleParams, b ∈ str "0123456789abcdef") ∧
    sampleClient.signData sampleHmac sampleParams
      = str "736563726574616d6f756e7431303030666c6f774f726465722d35746f6b656e616263" ∧
    sampleClient.signData sampleHmac sampleParams
      = lowerHexSpec (str "secret" ++ str "amount1000flowOrder-5tokenabc") ∧
    lowerHexSpec [0, 9, 171, 255] = str "0009abff" ∧
    stringFormSpec (Value.uint 1000) = str "1000" ∧
    stringFormSpec (Value.int (-5)) = str "-5" ∧
    stringFormSpec (Value.uint 0) = str "0" :=
  ⟨signData_canonical sampleHmac sampleClient sampleParams (by decide), by decide, by decide,
    by decide, by simp [stringFormSpec, decimalSpec, str],
    by simp [stringFormSpec, decimalSpec, str], by simp [stringFormSpec, decimalSpec, str]⟩

/-- Claim C2. Signature determinism: signData is a function of the secret and of the entries
of the map in their iteration order, and for every two iteration orders of the same entries
with distinct names (two calls on one map, or two maps filled in different insertion orders)
it returns the same signature. -/
theorem signData_perm_invariant (H : Hmac) (c : Client) (d₁ d₂ : GoMap) (hwf : d₁.WF)
    (hperm : d₁.Perm d₂) : c.signData H d₁ = c.signData H d₂ := by
  have hkeys : sortMapKeys d₁ = sortMapKeys d₂ := sortStrings_eq_of_perm (hperm.map Prod.fst)
  have hfmt : ∀ k, fmtLookup d₁ k = fmtLookup d₂ k := by
    intro k
    unfold fmtLookup
    rw [lookup_eq_of_perm hperm hwf k]
  simp only [Client.signData, hkeys, hfmt]

/-- Witness of claim C2: the two insertion orders of a two-entry map. -/
theorem signData_perm_invariant_witness :
    sampleClient.signData sampleHmac
        [(str "token", Value.string (str "abc")), (str "apiKey", Value.string (str "key"))]
      = sampleClient.signData sampleHmac
        [(str "apiKey", Value.string (str "key")), (str "token", Value.string (str "abc"))] :=
  signData_perm_invariant sampleHmac sampleClient _ _ (by decide) (List.Perm.swap _ _ _)

/-! ## The request builder (request.go): signature and identity key -/

theorem hexEncode_ne_x (l : List Nat) : hexEncode l ≠ str "x" := by
  intro h
  have hmem : (120 : Nat) ∈ hexEncode l := by
    rw [h]
    decide
  have := hexEncode_mem l 120 hmem
  revert this
  decide

theorem lookup_filter_ne {β : Type} (l : List (GoString × β)) (key k : GoString)
    (hk : k ≠ key) :
    (l.filter (fun p => decide (p.1 ≠ key))).lookup k = l.lookup k := by
  induction l with
  | nil => rfl
  | cons p ps ih =>
    obtain ⟨a, b⟩ := p
    by_cases ha : a = key
    · subst ha
      have hbeq : (k == a) = false := by simpa using hk
      rw [List.filter_cons_of_neg (by simp), List.lookup_cons, hbeq]
      exact ih
    · rw [List.filter_cons_of_pos (by simpa using ha), List.lookup_cons, List.lookup_cons, ih]

theorem values_lookup_set (v : Values) (key value k : GoString) :
    (v.Set key value).lookup k = if k = key then some [value] else v.lookup k := by
  unfold Values.Set
  by_cases hk : k = key
  · subst hk
    simp
  · rw [List.lookup_cons]
    have hbeq : (k == key) = false := by simpa using hk
    rw [hbeq, if_neg hk]
    exact lookup_filter_ne v key k hk

theorem lookup_none_of_not_mem_keys {m : GoMap} {k : GoString} (h : k ∉ m.keys) :
    m.lookup k = none := by
  cases hl : m.lookup k with
  | none => rfl
  | some v => exact absurd (List.mem_map_of_mem Prod.fst (mem_of_lookup hl)) h

theorem foldl_set_lookup (ps : GoMap) (hwf : ps.WF) (init : Values) (k : GoString) :
    (ps.foldl (fun q p => q.Set p.1 p.2.format) init).lookup k
      = match ps.lookup k with
        | some v => some [v.format]
        | none => init.lookup k := by
  induction ps generalizing init with
  | nil => rfl
  | cons p ps ih =>
    obtain ⟨k', v'⟩ := p
    have hwf' : GoMap.WF ps := (List.nodup_cons.1 hwf).2
    have hnot : k' ∉ GoMap.keys ps := (List.nodup_cons.1 hwf).1
    rw [List.foldl_cons, ih hwf']
    by_cases hk : k = k'
    · subst hk
      rw [lookup_none_of_not_mem_keys hnot]
      simp [values_lookup_set]
    · have hbeq : (k == k') = false := by simpa using hk
      rw [List.lookup_cons, hbeq]
      cases ps.lookup k with
      | none => simp [values_lookup_set, hk]
      | some v => rfl

theorem set_WF (m : GoMap) (hwf : m.WF) (k : GoString) (v : Value) : (m.set k v).WF := by
  unfold GoMap.set GoMap.WF GoMap.keys
  rw [List.map_cons, List.nodup_cons]
  constructor
  · simp
  · exact ((List.filter_sublist m).map Prod.fst).nodup hwf

theorem lookup_set (m : GoMap) (k k' : GoString) (v : Value) :
    (m.set k v).lookup k' = if k' = k then some v else m.lookup k' := by
  unfold GoMap.set
  by_cases hk : k' = k
  · subst hk
    simp
  · rw [List.lookup_cons]
    have hbeq : (k' == k) = false := by simpa using hk
    rw [hbeq, if_neg hk]
    exact lookup_filter_ne m k k' hk

theorem intercalate_cons_cons (sep a b : GoString) (l : List GoString) :
    sep.intercalate (a :: b :: l) = a ++ sep ++ sep.intercalate (b :: l) := by
  simp [List.intercalate, List.intersperse]

theorem splitOn_ne_nil (sep : Nat) (l : GoString) : splitOn sep l ≠ [] := by
  cases l with
  | nil => simp [splitOn]
  | cons b bs =>
    unfold splitOn
    split
    · simp
    · split <;> simp

theorem splitOn_of_no_sep (sep : Nat) (l : GoString) (h : ∀ b ∈ l, b ≠ sep) :
    splitOn sep l = [l] := by
  induction l with
  | nil => rfl
  | cons b bs ih =>
    have hb : b ≠ sep := h b (List.mem_cons_self b bs)
    have ih' := ih (fun x hx => h x (List.mem_cons_of_mem b hx))
    simp [splitOn, hb, ih']

theorem splitOn_append_sep (sep : Nat) (a rest : GoString) (h : ∀ b ∈ a, b ≠ sep) :
    splitOn sep (a ++ sep :: rest) = a :: splitOn sep rest := by
  induction a with
  | nil => simp [splitOn]
  | cons b bs ih =>
    have hb : b ≠ sep := h b (List.mem_cons_self b bs)
    have ih' := ih (fun x hx => h x (List.mem_cons_of_mem b hx))
    simp [splitOn, hb, ih']

theorem splitOn_intercalate (sep : Nat) (pieces : List GoString) (hne : pieces ≠ [])
    (h : ∀ p ∈ pieces, ∀ b ∈ p, b ≠ sep) :
    splitOn sep ([sep].intercalate pieces) = pieces := by
  induction pieces with
  | nil => exact absurd rfl hne
  | cons p ps ih =>
    cases ps with
    | nil =>
      have : [sep].intercalate [p] = p := by simp [List.intercalate, List.intersperse]
      rw [this]
      exact splitOn_of_no_sep sep p (h p (List.mem_cons_self p []))
    | cons q qs =>
      rw [intercalate_cons_cons, List.append_assoc, List.singleton_append,
        splitOn_append_sep sep p _ (h p (List.mem_cons_self p _)),
        ih (by simp) (fun x hx => h x (List.mem_cons_of_mem p hx))]

theorem upperHexDigit_ne (n : Nat) (h : n < 16) :
    upperHexDigit n ≠ 38 ∧ upperHexDigit n ≠ 61 := by
  revert n
  decide

theorem queryEscape_no_sep (s : GoString) : ∀ b ∈ queryEscape s, b ≠ 38 ∧ b ≠ 61 := by
  induction s with
  | nil => simp [queryEscape]
  | cons x xs ih =>
    intro b hb
    unfold queryEscape at hb
    split at hb
    · rename_i hkeep
      rcases List.mem_cons.1 hb with rfl | hb
      · simp only [isLetter, isDigit, Bool.or_eq_true, Bool.and_eq_true, decide_eq_true_eq]
          at hkeep
        omega
      · exact ih b hb
    · split at hb
      · rcases List.mem_cons.1 hb with rfl | hb
        · omega
        · exact ih b hb
      · simp only [List.mem_cons] at hb
        rcases hb with rfl | rfl | rfl | hb
        · omega
        · exact upperHexDigit_ne _ (Nat.mod_lt _ (by decide))
        · exact upperHexDigit_ne _ (Nat.mod_lt _ (by decide))
        · exact ih b hb

theorem cut_at_equals (a b : GoString) (h : ∀ x ∈ a, x ≠ 61) :
    ((a ++ 61 :: b).takeWhile (fun x => decide (x ≠ 61)),
      ((a ++ 61 :: b).dropWhile (fun x => decide (x ≠ 61))).drop 1) = (a, b) := by
  induction a with
  | nil => simp
  | cons x xs ih =>
    have hx : decide (x ≠ 61) = true := by simpa using h x (List.mem_cons_self x xs)
    have ih' := ih (fun y hy => h y (List.mem_cons_of_mem x hy))
    rw [Prod.mk.injEq] at ih' ⊢
    rw [List.cons_append, List.takeWhile_cons, List.dropWhile_cons, hx]
    exact ⟨by rw [if_pos rfl, ih'.1], by rw [if_pos rfl]; exact ih'.2⟩

/-- An entry of url.Values with a single value stands in the encoded string as a piece
name=value, name and value escaped. -/
theorem encode_has_entry (vs : Values) (k v : GoString) (h : vs.lookup k = some [v]) :
    (queryEscape k, queryEscape v) ∈ queryEntriesSpec vs.Encode := by
  have hk : k ∈ sortStrings (vs.map Prod.fst) := by
    apply (sortStrings_perm _).symm.subset
    obtain ⟨l₁, l₂, rfl, _⟩ := List.lookup_eq_some_iff.1 h
    simp
  have hpiece : queryEscape k ++ str "=" ++ queryEscape v ∈
      (sortStrings (vs.map Prod.fst)).flatMap (fun k =>
        ((vs.lookup k).getD []).map (fun x => queryEscape k ++ str "=" ++ queryEscape x)) := by
    rw [List.mem_flatMap]
    exact ⟨k, hk, by simp [h]⟩
  have hnosep : ∀ p ∈ (sortStrings (vs.map Prod.fst)).flatMap (fun k =>
        ((vs.lookup k).getD []).map (fun x => queryEscape k ++ str "=" ++ queryEscape x)),
      ∀ b ∈ p, b ≠ 38 := by
    intro p hp b hb
    rw [List.mem_flatMap] at hp
    obtain ⟨k', _, hp⟩ := hp
    rw [List.mem_map] at hp
    obtain ⟨x, _, rfl⟩ := hp
    simp only [List.mem_append] at hb
    rcases hb with (hb | hb) | hb
    · exact (queryEscape_no_sep k' b hb).1
    · have : b = 61 := by simpa [str] using hb
      omega
    · exact (queryEscape_no_sep x b hb).1
  unfold queryEntriesSpec Values.Encode
  have h38 : str "&" = [38] := rfl
  simp only [h38]
  rw [splitOn_intercalate 38 _ (List.ne_nil_of_mem hpiece) hnosep, List.mem_map]
  refine ⟨queryEscape k ++ str "=" ++ queryEscape v, ?_, ?_⟩
  · rw [List.mem_filter]
    exact ⟨hpiece, by simp [str]⟩
  · have h61 : queryEscape k ++ str "=" ++ queryEscape v
        = queryEscape k ++ 61 :: queryEscape v := by simp [str]
    rw [h61]
    exact cut_at_equals _ _ (fun x hx => (queryEscape_no_sep k x hx).2)

theorem queryEscape_of_unreserved (s : GoString)
    (h : ∀ b ∈ s, (isLetter b || isDigit b || b = 45 || b = 95 || b = 46 || b = 126) = true) :
    queryEscape s = s := by
  induction s with
  | nil => rfl
  | cons x xs ih =>
    have hx := h x (List.mem_cons_self x xs)
    have ih' := ih (fun y hy => h y (List.mem_cons_of_mem x hy))
    unfold queryEscape
    rw [if_pos hx, ih']

theorem queryEscape_hexEncode (l : List Nat) : queryEscape (hexEncode l) = hexEncode l := by
  apply queryEscape_of_unreserved
  intro b hb
  have hall : ∀ x ∈ str "0123456789abcdef",
      (isLetter x || isDigit x || x = 45 || x = 95 || x = 46 || x = 126) = true := by
    decide
  exact hall b (hexEncode_mem l b hb)

/-- Claim C3, amended. For every client whose base URL the parser accepts and every
parameter map without an entry named s (it may have one named apiKey), buildGET and
buildPOST produce the same encoded values as query string and as form body, in which s is
signData of the map with apiKey set to the configured key (the signature is not part of what
is signed), apiKey is the configured key, and every other parameter has the string form of
its value; and each of these stands in the produced string as an entry name=value, name and
value escaped. -/
theorem build_entries_without_s (H : Hmac) (c : Client) (endpoint : GoString) (data : GoMap)
    (u : URL) (hwf : data.WF) (hs : str "s" ∉ data.keys) (hu : urlParse c.URL = some u) :
    ∃ vs : Values,
      (c.buildGET H endpoint data).map URL.RawQuery = some vs.Encode ∧
      (c.buildPOST H endpoint data).map Prod.snd = some vs.Encode ∧
      vs.lookup (str "s")
        = some [c.signData H (data.set (str "apiKey") (Value.string c.APIKey))] ∧
      vs.lookup (str "apiKey") = some [c.APIKey] ∧
      (∀ k v, (k, v) ∈ data → k ≠ str "apiKey" → vs.lookup k = some [stringFormSpec v]) ∧
      (str "s", c.signData H (data.set (str "apiKey") (Value.string c.APIKey)))
        ∈ queryEntriesSpec vs.Encode ∧
      (str "apiKey", queryEscape c.APIKey) ∈ queryEntriesSpec vs.Encode ∧
      (∀ k v, (k, v) ∈ data → k ≠ str "apiKey" →
        (queryEscape k, queryEscape (stringFormSpec v)) ∈ queryEntriesSpec vs.Encode) := by
  have hq : u.RawQuery = [] := by
    unfold urlParse at hu
    split at hu
    · dsimp only at hu
      split at hu
      · cases hu
        rfl
      · cases hu
    · cases hu
  have hwf' := set_WF data hwf (str "apiKey") (Value.string c.APIKey)
  have hsig : (((data.set (str "apiKey") (Value.string c.APIKey)).foldl
      (fun q p => q.Set p.1 p.2.format)
      (Values.Set [] (str "s")
        (c.signData H (data.set (str "apiKey") (Value.string c.APIKey))))).lookup (str "s"))
      = some [c.signData H (data.set (str "apiKey") (Value.string c.APIKey))] := by
    rw [foldl_set_lookup _ hwf', lookup_set]
    have hne : str "s" ≠ str "apiKey" := by decide
    rw [if_neg hne, lookup_none_of_not_mem_keys hs]
    simp [values_lookup_set]
  have hkey : (((data.set (str "apiKey") (Value.string c.APIKey)).foldl
      (fun q p => q.Set p.1 p.2.format)
      (Values.Set [] (str "s")
        (c.signData H (data.set (str "apiKey") (Value.string c.APIKey))))).lookup
          (str "apiKey")) = some [c.APIKey] := by
    rw [foldl_set_lookup _ hwf', lookup_set]
    simp [Value.format]
  have hbus : ∀ k v, (k, v) ∈ data → k ≠ str "apiKey" →
      (((data.set (str "apiKey") (Value.string c.APIKey)).foldl
        (fun q p => q.Set p.1 p.2.format)
        (Values.Set [] (str "s")
          (c.signData H (data.set (str "apiKey") (Value.string c.APIKey))))).lookup k)
        = some [stringFormSpec v] := by
    intro k v hmem hk
    rw [foldl_set_lookup _ hwf', lookup_set, if_neg hk, lookup_of_mem hwf hmem]
    simp only [format_eq_spec]
  refine ⟨(data.set (str "apiKey") (Value.string c.APIKey)).foldl
      (fun q p => q.Set p.1 p.2.format)
      (Values.Set [] (str "s")
        (c.signData H (data.set (str "apiKey") (Value.string c.APIKey)))),
      ?_, ?_, hsig, hkey, hbus, ?_, ?_, ?_⟩
  · simp [Client.buildGET, hu, parseQuery, hq]
  · simp [Client.buildPOST, hu]
  · have h := encode_has_entry _ _ _ hsig
    have h1 : queryEscape (str "s") = str "s" := by decide
    have h2 : queryEscape (c.signData H (data.set (str "apiKey") (Value.string c.APIKey)))
        = c.signData H (data.set (str "apiKey") (Value.string c.APIKey)) :=
      queryEscape_hexEncode _
    rw [h1, h2] at h
    exact h
  · have h := encode_has_entry _ _ _ hkey
    have h1 : queryEscape (str "apiKey") = str "apiKey" := by decide
    rw [h1] at h
    exact h
  · intro k v hmem hk
    exact encode_has_entry _ _ _ (hbus k v hmem hk)

/-- Witness of the amended claim C3: the status request of the spec, buildGET on the
endpoint /payment/getStatus with the single parameter token = abc, whose query string is
spelled out together with its entries. -/
theorem build_entries_without_s_witness :
    (∃ vs : Values,
      (sampleClient.buildGET sampleHmac (str "/payment/getStatus")
        [(str "token", Value.string (str "abc"))]).map URL.RawQuery = some vs.Encode ∧
      (sampleClient.buildPOST sampleHmac (str "/payment/getStatus")
        [(str "token", Value.string (str "abc"))]).map Prod.snd = some vs.Encode ∧
      vs.lookup (str "s")
        = some [sampleClient.signData sampleHmac
            (GoMap.set [(str "token", Value.string (str "abc"))] (str "apiKey")
              (Value.string sampleClient.APIKey))] ∧
      vs.lookup (str "apiKey") = some [sampleClient.APIKey] ∧
      (∀ k v, (k, v) ∈ [(str "token", Value.string (str "abc"))] → k ≠ str "apiKey" →
        vs.lookup k = some [stringFormSpec v]) ∧
      (str "s", sampleClient.signData sampleHmac
          (GoMap.set [(str "token", Value.string (str "abc"))] (str "apiKey")
            (Value.string sampleClient.APIKey)))
        ∈ queryEntriesSpec vs.Encode ∧
      (str "apiKey", queryEscape sampleClient.APIKey) ∈ queryEntriesSpec vs.Encode ∧
      (∀ k v, (k, v) ∈ [(str "token", Value.string (str "abc"))] → k ≠ str "apiKey" →
        (queryEscape k, queryEscape (stringFormSpec v)) ∈ queryEntriesSpec vs.Encode)) ∧
    (sampleClient.buildGET sampleHmac (str "/payment/getStatus")
        [(str "token", Value.string (str "abc"))]).map URL.RawQuery
      = some (str "apiKey=key&s=7365637265746170694b65796b6579746f6b656e616263&token=abc") ∧
    queryEntriesSpec (str "apiKey=key&s=7365637265746170694b65796b6579746f6b656e616263&token=abc")
      = [(str "apiKey", str "key"),
         (str "s", str "7365637265746170694b65796b6579746f6b656e616263"),
         (str "token", str "abc")] ∧
    sampleClient.signData sampleHmac
        [(str "token", Value.string (str "abc")), (str "apiKey", Value.string (str "key"))]
      = str "7365637265746170694b65796b6579746f6b656e616263" :=
  ⟨build_entries_without_s sampleHmac sampleClient (str "/payment/getStatus")
      [(str "token", Value.string (str "abc"))]
      { Scheme := str "https", Host := str "sandbox.flow.cl", Path := str "/api",
        RawQuery := [] }
      (by decide) (by decide) (by decide),
    by decide, by decide, by decide⟩

/-- Claim C3 as stated fails on a parameter map that has an entry named s. For the sample
client and the map with the single entry s = x, the query string of buildGET and the form
body of buildPOST are apiKey=key&s=x: their only s entry is the value of the caller, while
the signature, which was computed over a message that includes the entry s itself
(apiKeykeysx), is a hexadecimal string different from x and stands nowhere in the output. -/
theorem build_signature_overwritten_counterexample :
    (sampleClient.buildGET sampleHmac (str "/payment/getStatus")
        [(str "s", Value.string (str "x"))]).map URL.RawQuery = some (str "apiKey=key&s=x") ∧
    (sampleClient.buildPOST sampleHmac (str "/payment/getStatus")
        [(str "s", Value.string (str "x"))]).map Prod.snd = some (str "apiKey=key&s=x") ∧
    queryEntriesSpec (str "apiKey=key&s=x") = [(str "apiKey", str "key"), (str "s", str "x")] ∧
    sampleClient.signData sampleHmac
        (GoMap.set [(str "s", Value.string (str "x"))] (str "apiKey")
          (Value.string sampleClient.APIKey))
      = lowerHexSpec (sampleHmac (str "secret") (str "apiKeykeysx")) ∧
    sampleClient.signData sampleHmac
        (GoMap.set [(str "s", Value.string (str "x"))] (str "apiKey")
          (Value.string sampleClient.APIKey)) ≠ str "x" ∧
    sampleClient.signData sampleHmac [(str "apiKey", Value.string sampleClient.APIKey)]
      ≠ str "x" := by
  refine ⟨?_, ?_, ?_, ?_, ?_, ?_⟩ <;> decide

/-- The overwriting of the signature by an entry named s, for every HMAC function. -/
theorem build_signature_overwritten (H : Hmac) :
    (sampleClient.buildGET H (str "/payment/getStatus")
        [(str "s", Value.string (str "x"))]).map URL.RawQuery = some (str "apiKey=key&s=x") ∧
    (sampleClient.buildPOST H (str "/payment/getStatus")
        [(str "s", Value.string (str "x"))]).map Prod.snd = some (str "apiKey=key&s=x") ∧
    (∀ data : GoMap, sampleClient.signData H data ≠ str "x") ∧
    sampleClient.signData H
        (GoMap.set [(str "s", Value.string (str "x"))] (str "apiKey")
          (Value.string sampleClient.APIKey))
      = hexEncode (H (str "secret") (str "apiKeykeysx")) :=
  ⟨rfl, rfl, fun _ => hexEncode_ne_x _, rfl⟩

/-! ## The webhook confirmation handlers (callback.go) -/

theorem notification_parseForm (ts : List GoString) (h : ts ≠ []) :
    (notification ts).ParseForm
      = ({ notification ts with
            PostForm := some [(str "token", ts)], Form := some [(str "token", ts)] }, none) := by
  simp [notification, Request.ParseForm, copyValues, h]

theorem notification_nil_parseForm :
    (notification []).ParseForm
      = ({ notification [] with PostForm := some [], Form := some [] }, none) := by
  simp [notification, Request.ParseForm]

theorem values_get_token (ts : List GoString) :
    Values.Get [(str "token", ts)] (str "token") = ts.headD [] := by
  cases ts <;> simp [Values.Get]

theorem index_token (ts : List GoString) :
    indexNilable (some [(str "token", ts)]) (str "token") = some ts := by
  simp [indexNilable, Values.index]

theorem doReq_trace (env : Env) (c : Client) (method : GoString) (u : URL) (body : GoString) :
    statusCodes (c.doReq env method u body).1 = [] ∧
    orderCallbacks (c.doReq env method u body).1 = [] ∧
    refundCallbacks (c.doReq env method u body).1 = [] ∧
    upstreamCalls (c.doReq env method u body).1 ≠ [] := by
  unfold Client.doReq
  repeat' split
  all_goals simp [statusCodes, orderCallbacks, refundCallbacks, upstreamCalls]

theorem getOrder_trace (env : Env) (c : Client) (t : GoString) :
    statusCodes (c.GetOrder env t).1 = [] ∧ orderCallbacks (c.GetOrder env t).1 = [] := by
  unfold Client.GetOrder Client.get
  split
  · simp [statusCodes, orderCallbacks]
  · rename_i u _
    have h := doReq_trace env c (str "GET") u []
    split
    · rename_i tr err heq
      rw [heq] at h
      exact ⟨h.1, h.2.1⟩
    · rename_i tr data heq
      rw [heq] at h
      split <;> exact ⟨h.1, h.2.1⟩

theorem getRefundStatus_trace (env : Env) (c : Client) (t : GoString) :
    statusCodes (c.GetRefundStatus env t).1 = [] ∧
    refundCallbacks (c.GetRefundStatus env t).1 = [] := by
  unfold Client.GetRefundStatus Client.get
  split
  · simp [statusCodes, refundCallbacks]
  · rename_i u _
    have h := doReq_trace env c (str "GET") u []
    split
    · rename_i tr err heq
      rw [heq] at h
      exact ⟨h.1, h.2.2.1⟩
    · rename_i tr data heq
      rw [heq] at h
      split <;> exact ⟨h.1, h.2.2.1⟩

theorem statusCodes_append (a b : List Event) :
    statusCodes (a ++ b) = statusCodes a ++ statusCodes b := by
  induction a with
  | nil => rfl
  | cons e es ih => cases e <;> simp [statusCodes, ih]

theorem orderCallbacks_append (a b : List Event) :
    orderCallbacks (a ++ b) = orderCallbacks a ++ orderCallbacks b := by
  induction a with
  | nil => rfl
  | cons e es ih => cases e <;> simp [orderCallbacks, ih]

theorem refundCallbacks_append (a b : List Event) :
    refundCallbacks (a ++ b) = refundCallbacks a ++ refundCallbacks b := by
  induction a with
  | nil => rfl
  | cons e es ih => cases e <;> simp [refundCallbacks, ih]

theorem ginCalls_map_call (tr : List Event) (rest : List GinStep) :
    ginCalls (tr.map GinStep.call ++ rest) = tr ++ ginCalls rest := by
  induction tr with
  | nil => rfl
  | cons e es ih => simp [ginCalls, ih]

theorem ginRecorded_map_call (tr : List Event) (rest : List GinStep) :
    ginRecorded (tr.map GinStep.call ++ rest) = ginRecorded rest := by
  induction tr with
  | nil => rfl
  | cons e es ih => simp [ginRecorded, ih]

/-- A gin handler that makes the calls tr and then only records a status code: the code is
written after the calls. -/
theorem ginServe_status (tr : List Event) (code : Nat) :
    ginServe (tr.map GinStep.call ++ [GinStep.status code]) = tr ++ [Event.writeStatus code] := by
  simp [ginServe, ginCalls_map_call, ginRecorded_map_call, ginRecorded, ginCalls]

/-- A gin handler that makes the calls tr, records a status code and then makes the call e:
the code is written after the call e. -/
theorem ginServe_status_call (tr : List Event) (code : Nat) (e : Event) :
    ginServe (tr.map GinStep.call ++ [GinStep.status code, GinStep.call e])
      = tr ++ [e, Event.writeStatus code] := by
  simp [ginServe, ginCalls_map_call, ginRecorded_map_call, ginRecorded, ginCalls]

/-- Trace of the HTTP order handler on a notification with one non-empty token whose lookup
returns an order: the calls of the lookup, then status 200 and the callback when the order
is payed, status 401 alone otherwise. -/
theorem httpOrder_resolved (env : Env) (c : Client) (t : GoString) (tr : List Event)
    (o : Order) (ht : t ≠ []) (hl : c.GetOrder env t = (tr, Result.ok o)) :
    c.HTTPOrderConfirmationCallback env (notification [t])
      = tr ++ (if o.Status = OrderStatusPayed
          then [Event.writeStatus 200, Event.onAcceptedOrder o]
          else [Event.writeStatus 401]) := by
  unfold Client.HTTPOrderConfirmationCallback
  rw [notification_parseForm [t] (by simp)]
  simp only [Option.getD_some, values_get_token, List.headD_cons, ht, if_false, hl]
  split <;> rfl

/-- Trace of the Gin order handler on a request whose PostForm already holds exactly one
token whose lookup returns an order: the calls of the lookup, then, when the order is payed,
the callback and after it the write of status 202 (ctx.Status only records the code),
otherwise the write of status 401 alone. -/
theorem ginOrder_resolved (env : Env) (c : Client) (r : Request) (t : GoString)
    (tr : List Event) (o : Order) (hr : indexNilable r.PostForm (str "token") = some [t])
    (hl : c.GetOrder env t = (tr, Result.ok o)) :
    c.GinOrderConfirmationCallback env r
      = tr ++ (if o.Status = OrderStatusPayed
          then [Event.onAcceptedOrder o, Event.writeStatus 202]
          else [Event.writeStatus 401]) := by
  unfold Client.GinOrderConfirmationCallback
  rw [hr]
  simp only [hl]
  split
  · exact ginServe_status_call tr StatusAccepted _
  · exact ginServe_status tr StatusUnauthorized

/-- Claim C4 (defect of the code). The Gin order handler reads the field PostForm without
calling ParseForm, so on every notification as it is received it answers 400 and makes no
lookup and no callback. At the notification with the token abc, whose lookup returns a payed
order, the claim asks for status 202 and one callback; the HTTP order handler answers it
with status 200 and one callback, and the Gin handler answers 202 with one callback only
once ParseForm has run on the request. -/
theorem ginOrder_rejects_received_notification :
    (∀ (env : Env) (c : Client) (tokens : List GoString),
      c.GinOrderConfirmationCallback env (notification tokens) = [Event.writeStatus 400]) ∧
    (sampleClient.GetOrder (sampleEnv 200 (str "200 OK") 2 (str "accepted")) (str "abc")).2
      = Result.ok (sampleOrder OrderStatusPayed) ∧
    statusCodes (sampleClient.HTTPOrderConfirmationCallback
      (sampleEnv 200 (str "200 OK") 2 (str "accepted")) (notification [str "abc"])) = [200] ∧
    orderCallbacks (sampleClient.HTTPOrderConfirmationCallback
      (sampleEnv 200 (str "200 OK") 2 (str "accepted")) (notification [str "abc"]))
      = [sampleOrder OrderStatusPayed] ∧
    statusCodes (sampleClient.GinOrderConfirmationCallback
      (sampleEnv 200 (str "200 OK") 2 (str "accepted"))
      (notification [str "abc"]).ParseForm.1) = [202] ∧
    orderCallbacks (sampleClient.GinOrderConfirmationCallback
      (sampleEnv 200 (str "200 OK") 2 (str "accepted"))
      (notification [str "abc"]).ParseForm.1) = [sampleOrder OrderStatusPayed] :=
  ⟨fun _ _ _ => rfl, by decide, by decide, by decide, by decide, by decide⟩

/-- Trace of the HTTP refund handler on a notification with one non-empty token whose lookup
returns a refund: the calls of the lookup, then status 202 and the callback when the refund
is accepted or refunded, status 401 alone otherwise. -/
theorem httpRefund_resolved (env : Env) (c : Client) (t : GoString) (tr : List Event)
    (refund : RefundStatus) (ht : t ≠ [])
    (hl : c.GetRefundStatus env t = (tr, Result.ok refund)) :
    c.HTTPRefundConfirmationCallback env (notification [t])
      = tr ++ (if refund.Status = RefundStatusAccepted ∨ refund.Status = RefundStatusRefunded
          then [Event.writeStatus 202, Event.onAcceptedRefund refund]
          else [Event.writeStatus 401]) := by
  unfold Client.HTTPRefundConfirmationCallback
  rw [notification_parseForm [t] (by simp)]
  simp only [Option.getD_some, values_get_token, List.headD_cons, ht, if_false, hl]
  split <;> rfl

/-- Trace of the Gin refund handler on a notification with one token whose lookup returns a
refund: the calls of the lookup, then, when the refund is accepted or refunded, the callback
and after it the write of status 200 (ctx.Status only records the code), otherwise the
write of status 401 alone. -/
theorem ginRefund_resolved (env : Env) (c : Client) (t : GoString) (tr : List Event)
    (refund : RefundStatus) (hl : c.GetRefundStatus env t = (tr, Result.ok refund)) :
    c.GinRefundConfirmationCallback env (notification [t])
      = tr ++ (if refund.Status = RefundStatusAccepted ∨ refund.Status = RefundStatusRefunded
          then [Event.onAcceptedRefund refund, Event.writeStatus 200]
          else [Event.writeStatus 401]) := by
  unfold Client.GinRefundConfirmationCallback
  rw [notification_parseForm [t] (by simp)]
  simp only [index_token, hl]
  split
  · exact ginServe_status_call tr StatusOK _
  · exact ginServe_status tr StatusUnauthorized

/-- Claim C5. Refund confirmation: on every notification carrying exactly one non-empty token
whose lookup returns a refund status, the HTTP and the Gin refund handler invoke the callback
exactly once, with that refund status, if and only if its status is accepted or refunded;
for every other status string the callback is not invoked and the one status written is
401. -/
theorem refund_confirmation (env : Env) (c : Client) (t : GoString) (tr : List Event)
    (refund : RefundStatus) (ht : t ≠ [])
    (hl : c.GetRefundStatus env t = (tr, Result.ok refund)) :
    (refundCallbacks (c.HTTPRefundConfirmationCallback env (notification [t])) = [refund]
      ↔ (refund.Status = RefundStatusAccepted ∨ refund.Status = RefundStatusRefunded)) ∧
    (refundCallbacks (c.GinRefundConfirmationCallback env (notification [t])) = [refund]
      ↔ (refund.Status = RefundStatusAccepted ∨ refund.Status = RefundStatusRefunded)) ∧
    (¬ (refund.Status = RefundStatusAccepted ∨ refund.Status = RefundStatusRefunded) →
      refundCallbacks (c.HTTPRefundConfirmationCallback env (notification [t])) = [] ∧
      statusCodes (c.HTTPRefundConfirmationCallback env (notification [t])) = [401] ∧
      refundCallbacks (c.GinRefundConfirmationCallback env (notification [t])) = [] ∧
      statusCodes (c.GinRefundConfirmationCallback env (notification [t])) = [401]) := by
  have hq := getRefundStatus_trace env c t
  rw [hl] at hq
  obtain ⟨hs, hc⟩ := hq
  simp only at hs hc
  rw [httpRefund_resolved env c t tr refund ht hl, ginRefund_resolved env c t tr refund hl]
  by_cases hqual : refund.Status = RefundStatusAccepted ∨ refund.Status = RefundStatusRefunded
  · simp [hqual, refundCallbacks_append, hc, refundCallbacks]
  · simp [hqual, refundCallbacks_append, statusCodes_append, hc, hs, refundCallbacks,
      statusCodes]

/-- Witness of claim C5: a notification with the token abc whose refund is accepted. -/
theorem refund_confirmation_witness :
    (refundCallbacks (sampleClient.HTTPRefundConfirmationCallback
        (sampleEnv 200 (str "200 OK") 2 RefundStatusAccepted) (notification [str "abc"]))
        = [sampleRefund RefundStatusAccepted]
      ↔ ((sampleRefund RefundStatusAccepted).Status = RefundStatusAccepted
          ∨ (sampleRefund RefundStatusAccepted).Status = RefundStatusRefunded)) ∧
    (refundCallbacks (sampleClient.GinRefundConfirmationCallback
        (sampleEnv 200 (str "200 OK") 2 RefundStatusAccepted) (notification [str "abc"]))
        = [sampleRefund RefundStatusAccepted]
      ↔ ((sampleRefund RefundStatusAccepted).Status = RefundStatusAccepted
          ∨ (sampleRefund RefundStatusAccepted).Status = RefundStatusRefunded)) ∧
    (¬ ((sampleRefund RefundStatusAccepted).Status = RefundStatusAccepted
          ∨ (sampleRefund RefundStatusAccepted).Status = RefundStatusRefunded) →
      refundCallbacks (sampleClient.HTTPRefundConfirmationCallback
        (sampleEnv 200 (str "200 OK") 2 RefundStatusAccepted) (notification [str "abc"])) = [] ∧
      statusCodes (sampleClient.HTTPRefundConfirmationCallback
        (sampleEnv 200 (str "200 OK") 2 RefundStatusAccepted) (notification [str "abc"]))
        = [401] ∧
      refundCallbacks (sampleClient.GinRefundConfirmationCallback
        (sampleEnv 200 (str "200 OK") 2 RefundStatusAccepted) (notification [str "abc"])) = [] ∧
      statusCodes (sampleClient.GinRefundConfirmationCallback
        (sampleEnv 200 (str "200 OK") 2 RefundStatusAccepted) (notification [str "abc"]))
        = [401]) :=
  refund_confirmation (sampleEnv 200 (str "200 OK") 2 RefundStatusAccepted) sampleClient
    (str "abc")
    (sampleClient.GetRefundStatus (sampleEnv 200 (str "200 OK") 2 RefundStatusAccepted)
      (str "abc")).1
    (sampleRefund RefundStatusAccepted) (by decide) (by decide)

/-- A notification without a token value is answered 400 by all four handlers, with no
lookup and no callback. -/
theorem no_token_rejected (env : Env) (c : Client) :
    c.HTTPOrderConfirmationCallback env (notification []) = [Event.writeStatus 400] ∧
    c.GinOrderConfirmationCallback env (notification []) = [Event.writeStatus 400] ∧
    c.HTTPRefundConfirmationCallback env (notification []) = [Event.writeStatus 400] ∧
    c.GinRefundConfirmationCallback env (notification []) = [Event.writeStatus 400] := by
  refine ⟨?_, rfl, ?_, ?_⟩
  · unfold Client.HTTPOrderConfirmationCallback
    rw [notification_nil_parseForm]
    rfl
  · unfold Client.HTTPRefundConfirmationCallback
    rw [notification_nil_parseForm]
    rfl
  · unfold Client.GinRefundConfirmationCallback
    rw [notification_nil_parseForm]
    rfl

/-- A notification with two or more token values is answered 400 by the two Gin handlers,
with no lookup and no callback. -/
theorem gin_rejects_duplicate_token (env : Env) (c : Client) (a b : GoString)
    (rest : List GoString) :
    c.GinOrderConfirmationCallback env (notification (a :: b :: rest))
      = [Event.writeStatus 400] ∧
    c.GinRefundConfirmationCallback env (notification (a :: b :: rest))
      = [Event.writeStatus 400] := by
  refine ⟨rfl, ?_⟩
  unfold Client.GinRefundConfirmationCallback
  rw [notification_parseForm _ (by simp)]
  simp only [index_token]
  rfl

/-- Claim C6 (defect of the code). The two HTTP handlers read the token with Form.Get, which
returns the first value, so they do not reject a duplicated token as the two Gin handlers
do: on the notification with the token values abc and def, the HTTP order handler makes the
lookup, writes 200 and invokes the callback, and the HTTP refund handler makes the lookup,
writes 202 and invokes the callback, where the claim asks for 400 without lookup. -/
theorem http_handlers_accept_duplicate_token :
    statusCodes (sampleClient.HTTPOrderConfirmationCallback
      (sampleEnv 200 (str "200 OK") 2 (str "accepted"))
      (notification [str "abc", str "def"])) = [200] ∧
    orderCallbacks (sampleClient.HTTPOrderConfirmationCallback
      (sampleEnv 200 (str "200 OK") 2 (str "accepted"))
      (notification [str "abc", str "def"])) = [sampleOrder 2] ∧
    upstreamCalls (sampleClient.HTTPOrderConfirmationCallback
      (sampleEnv 200 (str "200 OK") 2 (str "accepted"))
      (notification [str "abc", str "def"])) ≠ [] ∧
    statusCodes (sampleClient.HTTPRefundConfirmationCallback
      (sampleEnv 200 (str "200 OK") 2 (str "accepted"))
      (notification [str "abc", str "def"])) = [202] ∧
    refundCallbacks (sampleClient.HTTPRefundConfirmationCallback
      (sampleEnv 200 (str "200 OK") 2 (str "accepted"))
      (notification [str "abc", str "def"])) = [sampleRefund (str "accepted")] ∧
    upstreamCalls (sampleClient.HTTPRefundConfirmationCallback
      (sampleEnv 200 (str "200 OK") 2 (str "accepted"))
      (notification [str "abc", str "def"])) ≠ [] ∧
    sampleClient.GinRefundConfirmationCallback
      (sampleEnv 200 (str "200 OK") 2 (str "accepted"))
      (notification [str "abc", str "def"]) = [Event.writeStatus 400] := by
  refine ⟨?_, ?_, ?_, ?_, ?_, ?_, ?_⟩ <;> decide

/-- An error of the lookup is answered 500, without callback, by every handler that has
extracted the token: the HTTP order handler on a notification with one non-empty token, and
the Gin order handler on a request whose PostForm already holds exactly one token. -/
theorem order_lookup_error (env : Env) (c : Client) (t : GoString) (tr : List Event)
    (e : Err) (hl : c.GetOrder env t = (tr, Result.err e)) :
    (t ≠ [] → c.HTTPOrderConfirmationCallback env (notification [t])
      = tr ++ [Event.writeStatus 500]) ∧
    (∀ r : Request, indexNilable r.PostForm (str "token") = some [t] →
      c.GinOrderConfirmationCallback env r = tr ++ [Event.writeStatus 500]) := by
  constructor
  · intro ht
    unfold Client.HTTPOrderConfirmationCallback
    rw [notification_parseForm [t] (by simp)]
    simp only [Option.getD_some, values_get_token, List.headD_cons, ht, if_false, hl]
    rfl
  · intro r hr
    unfold Client.GinOrderConfirmationCallback
    rw [hr]
    simp only [hl]
    exact ginServe_status tr StatusInternalServerError

/-- An error of the lookup is answered 500, without callback, by both refund handlers on a
notification with one non-empty token. -/
theorem refund_lookup_error (env : Env) (c : Client) (t : GoString) (tr : List Event)
    (e : Err) (ht : t ≠ []) (hl : c.GetRefundStatus env t = (tr, Result.err e)) :
    c.HTTPRefundConfirmationCallback env (notification [t]) = tr ++ [Event.writeStatus 500] ∧
    c.GinRefundConfirmationCallback env (notification [t]) = tr ++ [Event.writeStatus 500] := by
  constructor
  · unfold Client.HTTPRefundConfirmationCallback
    rw [notification_parseForm [t] (by simp)]
    simp only [Option.getD_some, values_get_token, List.headD_cons, ht, if_false, hl]
    rfl
  · unfold Client.GinRefundConfirmationCallback
    rw [notification_parseForm [t] (by simp)]
    simp only [index_token, hl]
    exact ginServe_status tr StatusInternalServerError

/-- Claim C7 (defect of the code, the one of claim C4). With the remote service unreachable,
the lookup of the token abc returns an error, and on the notification carrying this token
the HTTP order handler and both refund handlers answer 500 without callback, as claimed; the
Gin order handler, which reads PostForm without calling ParseForm, answers 400 and never
makes the lookup, where the claim asks for 500. -/
theorem ginOrder_upstream_failure_answered_400 :
    (sampleClient.GetOrder unreachableEnv (str "abc")).2
      = Result.err (Err.wrap (Err.new (str "connection refused"))
          (str "unable to transact with the server")) ∧
    sampleClient.GinOrderConfirmationCallback unreachableEnv (notification [str "abc"])
      = [Event.writeStatus 400] ∧
    statusCodes (sampleClient.HTTPOrderConfirmationCallback unreachableEnv
      (notification [str "abc"])) = [500] ∧
    orderCallbacks (sampleClient.HTTPOrderConfirmationCallback unreachableEnv
      (notification [str "abc"])) = [] ∧
    statusCodes (sampleClient.HTTPRefundConfirmationCallback unreachableEnv
      (notification [str "abc"])) = [500] ∧
    refundCallbacks (sampleClient.HTTPRefundConfirmationCallback unreachableEnv
      (notification [str "abc"])) = [] ∧
    statusCodes (sampleClient.GinRefundConfirmationCallback unreachableEnv
      (notification [str "abc"])) = [500] ∧
    refundCallbacks (sampleClient.GinRefundConfirmationCallback unreachableEnv
      (notification [str "abc"])) = [] := by
  refine ⟨?_, ?_, ?_, ?_, ?_, ?_, ?_, ?_⟩ <;> decide

/-! ## Local validation (payment.go) -/

theorem isValid_eq_false_iff (req : OrderRequest) :
    req.isValid = false
      ↔ (req.CommerceOrder = [] ∨ req.Subject = [] ∨ req.Amount = 0 ∨ req.PayerEmail = []) := by
  unfold OrderRequest.isValid
  split <;> simp_all

/-- Claim C8. Local validation: CreateOrder returns the validation error (with a nil result),
and CreateEmailOrder returns (-1, "") with the validation error, if and only if
CommerceOrder is empty, Subject is empty, Amount is 0 or PayerEmail is empty; in that case
no request was built or sent: the trace of calls is empty. -/
theorem local_validation (env : Env) (c : Client) (req : OrderRequest) :
    ((c.CreateOrder env req).2 = Result.err invalidOrderRequest
      ↔ (req.CommerceOrder = [] ∨ req.Subject = [] ∨ req.Amount = 0 ∨ req.PayerEmail = [])) ∧
    ((∃ id tok, (c.CreateEmailOrder env req).2
        = EmailOrderResult.ret id tok (some invalidOrderRequest))
      ↔ (req.CommerceOrder = [] ∨ req.Subject = [] ∨ req.Amount = 0 ∨ req.PayerEmail = [])) ∧
    ((req.CommerceOrder = [] ∨ req.Subject = [] ∨ req.Amount = 0 ∨ req.PayerEmail = []) →
      c.CreateOrder env req = ([], Result.err invalidOrderRequest) ∧
      c.CreateEmailOrder env req
        = ([], EmailOrderResult.ret (-1) [] (some invalidOrderRequest))) := by
  rw [← isValid_eq_false_iff]
  refine ⟨?_, ?_, ?_⟩
  · unfold Client.CreateOrder
    cases hv : req.isValid
    · simp
    · simp only [Bool.not_true, Bool.false_eq_true, if_false]
      constructor
      · intro h
        exfalso
        revert h
        repeat' split
        all_goals simp [invalidOrderRequest]
      · intro h
        cases h
  · unfold Client.CreateEmailOrder
    cases hv : req.isValid
    · simp
    · simp only [Bool.not_true, Bool.false_eq_true, if_false]
      constructor
      · rintro ⟨id, tok, h⟩
        exfalso
        revert h
        repeat' split
        all_goals simp [invalidOrderRequest]
      · intro h
        cases h
  · intro hv
    simp [Client.CreateOrder, Client.CreateEmailOrder, hv]

/-! ## Response classification (request.go) -/

/-- Claim C9. Response classification in do: when the request was built, the round trip
returned a response and its body was read, do returns the raw body with no error if and only
if the status code is in 200..299; for every other status code it returns no data and an
error whose message is the decoded message field when the body decodes as a requestError,
and otherwise the message made of the status line and the numeric code. -/
theorem do_classifies (env : Env) (c : Client) (method : GoString) (u : URL)
    (body : GoString) (resp : Response) (data : GoString)
    (hreq : env.newRequest method u (bodyReader body) = none)
    (hrt : env.roundTrip method u (bodyReader body) = Except.ok resp)
    (hbody : resp.Body = Except.ok data) :
    ((c.doReq env method u body).2 = Except.ok data
      ↔ (200 ≤ resp.StatusCode ∧ resp.StatusCode ≤ 299)) ∧
    ((∃ d, (c.doReq env method u body).2 = Except.ok d)
      ↔ (200 ≤ resp.StatusCode ∧ resp.StatusCode ≤ 299)) ∧
    (¬ (200 ≤ resp.StatusCode ∧ resp.StatusCode ≤ 299) →
      (∀ rqError, env.unmarshalError data = Except.ok rqError →
        (c.doReq env method u body).2 = Except.error (Err.new rqError.Message) ∧
        (Err.new rqError.Message).Error = rqError.Message) ∧
      (∀ e, env.unmarshalError data = Except.error e →
        (c.doReq env method u body).2 = Except.error (Err.new (serverErrorMessage resp)) ∧
        (Err.new (serverErrorMessage resp)).Error
          = str "server error: http error " ++ resp.Status ++ str " ("
              ++ str (toString resp.StatusCode) ++ str ")")) := by
  unfold Client.doReq
  simp only [hreq, hrt, hbody]
  by_cases h2 : 200 ≤ resp.StatusCode ∧ resp.StatusCode ≤ 299
  · have hn : ¬ (resp.StatusCode < 200 ∨ resp.StatusCode > 299) := by omega
    simp [hn, h2]
  · have hn : resp.StatusCode < 200 ∨ resp.StatusCode > 299 := by omega
    simp only [hn, if_true, h2, iff_false, not_false_eq_true, true_implies]
    refine ⟨?_, ?_, ?_, ?_⟩
    · split <;> simp
    · split <;> simp
    · intro rqError hd
      simp [hd, Err.Error]
    · intro e hd
      simp [hd, Err.Error, serverErrorMessage]

/-- Witness of claim C9: a response 404 Not Found whose body does not decode. -/
theorem do_classifies_witness :
    ((sampleClient.doReq (sampleEnv 404 (str "404 Not Found") 2 (str "accepted")) (str "GET")
        ⟨str "https", str "sandbox.flow.cl", str "/api/payment/getStatus", []⟩ []).2
        = Except.ok []
      ↔ (200 ≤ (404 : Int) ∧ (404 : Int) ≤ 299)) ∧
    (sampleClient.doReq (sampleEnv 404 (str "404 Not Found") 2 (str "accepted")) (str "GET")
        ⟨str "https", str "sandbox.flow.cl", str "/api/payment/getStatus", []⟩ []).2
      = Except.error (Err.new (str "server error: http error 404 Not Found (404)")) :=
  have h := do_classifies (sampleEnv 404 (str "404 Not Found") 2 (str "accepted")) sampleClient
    (str "GET") ⟨str "https", str "sandbox.flow.cl", str "/api/payment/getStatus", []⟩ []
    { Status := str "404 Not Found", StatusCode := 404, Body := Except.ok [] } [] rfl rfl rfl
  ⟨h.1, (h.2.2 (by decide)).2 (Err.new (str "unexpected end of input")) rfl |>.1⟩

/-! ## Path joining (request.go, path.Join) -/

/-- The model of path.Clean agrees with the library on its documented test table. -/
theorem pathClean_table :
    pathClean (str "") = str "." ∧ pathClean (str "abc") = str "abc" ∧
    pathClean (str "a/b/c") = str "a/b/c" ∧ pathClean (str "..") = str ".." ∧
    pathClean (str "../../abc") = str "../../abc" ∧ pathClean (str "/") = str "/" ∧
    pathClean (str "abc/def/") = str "abc/def" ∧ pathClean (str "../../") = str "../.." ∧
    pathClean (str "/abc/") = str "/abc" ∧
    pathClean (str "abc//def//ghi") = str "abc/def/ghi" ∧
    pathClean (str "///abc") = str "/abc" ∧ pathClean (str "abc/./def") = str "abc/def" ∧
    pathClean (str "/./abc/def") = str "/abc/def" ∧
    pathClean (str "abc/def/ghi/../jkl") = str "abc/def/jkl" ∧
    pathClean (str "abc/def/../..") = str "." ∧ pathClean (str "/abc/def/../..") = str "/" ∧
    pathClean (str "abc/def/../../..") = str ".." ∧
    pathClean (str "/abc/def/../../..") = str "/" ∧
    pathClean (str "abc/def/../../../ghi/jkl/../../../mno") = str "../../mno" ∧
    pathClean (str "abc/./../def") = str "def" ∧
    pathClean (str "abc/../../././../def") = str "../../def" := by
  refine ⟨?_, ?_, ?_, ?_, ?_, ?_, ?_, ?_, ?_, ?_, ?_, ?_, ?_, ?_, ?_, ?_, ?_, ?_, ?_, ?_, ?_⟩
    <;> decide

theorem splitSlash_ne_nil (l : GoString) : splitSlash l ≠ [] := by
  cases l with
  | nil => simp [splitSlash]
  | cons b bs =>
    unfold splitSlash
    split
    · simp
    · split <;> simp

theorem intercalate_splitSlash (l : GoString) : [47].intercalate (splitSlash l) = l := by
  induction l with
  | nil => simp [splitSlash, List.intercalate]
  | cons b bs ih =>
    unfold splitSlash
    cases hs : splitSlash bs with
    | nil => exact absurd hs (splitSlash_ne_nil bs)
    | cons s ss =>
      rw [hs] at ih
      by_cases hb : b = 47
      · simp only [hb, if_true]
        rw [intercalate_cons_cons, ih]
        rfl
      · simp only [hb, if_false]
        cases ss with
        | nil =>
          simp only [List.intercalate, List.intersperse, List.flatten] at ih ⊢
          simpa using ih
        | cons s' ss' =>
          rw [intercalate_cons_cons] at ih ⊢
          rw [← ih]
          simp

theorem foldl_cleanStep_kept (rooted : Bool) (segs acc : List GoString)
    (h : ∀ seg ∈ segs, seg ≠ [] ∧ seg ≠ str "." ∧ seg ≠ str "..") :
    segs.foldl (cleanStep rooted) acc = segs.reverse ++ acc := by
  induction segs generalizing acc with
  | nil => rfl
  | cons s ss ih =>
    have hs := h s (List.mem_cons_self s ss)
    have hstep : cleanStep rooted acc s = s :: acc := by
      simp [cleanStep, hs.1, hs.2.1, hs.2.2]
    rw [List.foldl_cons, hstep, ih (s :: acc) (fun seg hm => h seg (List.mem_cons_of_mem s hm))]
    simp

theorem splitSlash_api (rest : GoString) :
    splitSlash (str "/api" ++ [47] ++ (47 :: rest)) = [] :: str "api" :: [] :: splitSlash rest := by
  have h : str "/api" ++ [47] ++ (47 :: rest) = 47 :: 97 :: 112 :: 105 :: 47 :: 47 :: rest := rfl
  rw [h]
  simp [splitSlash]
  rfl

/-- Joining the base path /api with an endpoint that starts with a slash and whose elements
are all kept by path.Clean gives /api followed by the endpoint. -/
theorem pathJoin_api (rest : GoString)
    (h : ∀ seg ∈ splitSlash rest, seg ≠ [] ∧ seg ≠ str "." ∧ seg ≠ str "..") :
    pathJoin (str "/api") (47 :: rest) = str "/api" ++ 47 :: rest := by
  have hne : str "/api" ≠ [] := by decide
  have hp : str "/api" ++ [47] ++ (47 :: rest) ≠ [] := by simp
  have hhead : (str "/api" ++ [47] ++ (47 :: rest)).head? = some 47 := rfl
  unfold pathJoin
  rw [if_pos hne]
  unfold pathClean
  rw [if_neg hp]
  simp only [hhead, decide_True, if_true, splitSlash_api]
  have hfold : List.foldl (cleanStep true) [] ([] :: str "api" :: [] :: splitSlash rest)
      = (splitSlash rest).reverse ++ [str "api"] := by
    simp only [List.foldl_cons]
    have h1 : cleanStep true [] [] = [] := rfl
    have h2 : cleanStep true [] (str "api") = [str "api"] := rfl
    have h3 : cleanStep true [str "api"] [] = [str "api"] := rfl
    rw [h1, h2, h3]
    exact foldl_cleanStep_kept true _ _ h
  rw [hfold]
  simp only [List.reverse_append, List.reverse_reverse, List.reverse_cons, List.reverse_nil,
    List.nil_append, List.singleton_append]
  cases hs : splitSlash rest with
  | nil => exact absurd hs (splitSlash_ne_nil rest)
  | cons s ss =>
    rw [intercalate_cons_cons, ← hs, intercalate_splitSlash]
    simp
    rfl

theorem urlParse_sandbox :
    urlParse SandboxURL
      = some { Scheme := str "https", Host := str "sandbox.flow.cl", Path := str "/api",
               RawQuery := [] } := by
  decide

theorem urlParse_production :
    urlParse ProductionURL
      = some { Scheme := str "https", Host := str "www.flow.cl", Path := str "/api",
               RawQuery := [] } := by
  decide

/-- Claim C10 as stated fails: for the sandbox base URL and the endpoint /../x, which begins
with a slash, buildGET and buildPOST produce the path /x, which is not /api followed by the
endpoint and has lost the segment /api of the base URL. -/
theorem build_path_dotdot_counterexample :
    sampleClient.URL = SandboxURL ∧
    (sampleClient.buildGET sampleHmac (str "/../x") []).map URL.Path = some (str "/x") ∧
    (sampleClient.buildPOST sampleHmac (str "/../x") []).map (fun p => p.1.Path)
      = some (str "/x") ∧
    str "/x" ≠ str "/api" ++ str "/../x" := by
  refine ⟨rfl, ?_, ?_, ?_⟩ <;> decide

/-- Claim C10, amended. For either configured base URL and every endpoint that begins with
a slash and whose elements between slashes are all non-empty and none of them is the dot or
the dot-dot element, buildGET and buildPOST produce the path /api followed by the endpoint
as written (so with no doubled slash and with the segment /api of the base URL kept). -/
theorem build_path_of_clean_endpoint (H : Hmac) (c : Client) (rest : GoString) (data : GoMap)
    (hurl : c.URL = SandboxURL ∨ c.URL = ProductionURL)
    (hseg : ∀ seg ∈ splitSlash rest, seg ≠ [] ∧ seg ≠ str "." ∧ seg ≠ str "..") :
    (c.buildGET H (47 :: rest) data).map URL.Path = some (str "/api" ++ 47 :: rest) ∧
    (c.buildPOST H (47 :: rest) data).map (fun p => p.1.Path)
      = some (str "/api" ++ 47 :: rest) := by
  have hj := pathJoin_api rest hseg
  rcases hurl with h | h
  · simp only [Client.buildGET, Client.buildPOST, h, urlParse_sandbox, hj, parseQuery]
    simp
  · simp only [Client.buildGET, Client.buildPOST, h, urlParse_production, hj, parseQuery]
    simp

/-- Witness of the amended claim C10: the sandbox base URL and the endpoint
/payment/getStatus give the path /api/payment/getStatus. -/
theorem build_path_of_clean_endpoint_witness :
    (sampleClient.buildGET sampleHmac (47 :: str "payment/getStatus")
        [(str "token", Value.string (str "abc"))]).map URL.Path
      = some (str "/api" ++ 47 :: str "payment/getStatus") ∧
    (sampleClient.buildPOST sampleHmac (47 :: str "payment/getStatus")
        [(str "token", Value.string (str "abc"))]).map (fun p => p.1.Path)
      = some (str "/api" ++ 47 :: str "payment/getStatus") :=
  build_path_of_clean_endpoint sampleHmac sampleClient (str "payment/getStatus")
    [(str "token", Value.string (str "abc"))] (Or.inl rfl) (by decide)

/-! ## Order of the effects on acceptance (callback.go) -/

theorem effects_append (a b : List Event) : effects (a ++ b) = effects a ++ effects b := by
  induction a with
  | nil => rfl
  | cons e es ih => cases e <;> simp [effects, ih]

theorem doReq_effects (env : Env) (c : Client) (method : GoString) (u : URL) (body : GoString) :
    effects (c.doReq env method u body).1 = [] := by
  unfold Client.doReq
  repeat' split
  all_goals rfl

theorem getOrder_effects (env : Env) (c : Client) (t : GoString) :
    effects (c.GetOrder env t).1 = [] := by
  unfold Client.GetOrder Client.get
  split
  · rfl
  · rename_i u _
    have h := doReq_effects env c (str "GET") u []
    split
    · rename_i tr err heq
      rw [heq] at h
      exact h
    · rename_i tr data heq
      rw [heq] at h
      split <;> exact h

theorem getRefundStatus_effects (env : Env) (c : Client) (t : GoString) :
    effects (c.GetRefundStatus env t).1 = [] := by
  unfold Client.GetRefundStatus Client.get
  split
  · rfl
  · rename_i u _
    have h := doReq_effects env c (str "GET") u []
    split
    · rename_i tr err heq
      rw [heq] at h
      exact h
    · rename_i tr data heq
      rw [heq] at h
      split <;> exact h

/-- Trace of the HTTP order handler on any request from which it extracts the token t (the
form parses and the first value of token is t, not empty) and whose lookup returns a payed
order: the calls of the lookup, then the status 200, then the callback. -/
theorem httpOrder_accepts (env : Env) (c : Client) (r : Request) (t : GoString)
    (tr : List Event) (o : Order) (hp : r.ParseForm.2 = none)
    (hg : (r.ParseForm.1.Form.getD []).Get (str "token") = t) (ht : t ≠ [])
    (hl : c.GetOrder env t = (tr, Result.ok o)) (hq : o.Status = OrderStatusPayed) :
    c.HTTPOrderConfirmationCallback env r
      = tr ++ [Event.writeStatus 200, Event.onAcceptedOrder o] := by
  unfold Client.HTTPOrderConfirmationCallback
  cases hpf : r.ParseForm with
  | mk r' e =>
    rw [hpf] at hp hg
    simp only at hp hg
    subst hp
    simp only [hg, ht, if_false, hl, hq, if_true]
    rfl

/-- Trace of the HTTP refund handler on any request from which it extracts the token t and
whose lookup returns an accepted or refunded refund: the calls of the lookup, then the
status 202, then the callback. -/
theorem httpRefund_accepts (env : Env) (c : Client) (r : Request) (t : GoString)
    (tr : List Event) (refund : RefundStatus) (hp : r.ParseForm.2 = none)
    (hg : (r.ParseForm.1.Form.getD []).Get (str "token") = t) (ht : t ≠ [])
    (hl : c.GetRefundStatus env t = (tr, Result.ok refund))
    (hq : refund.Status = RefundStatusAccepted ∨ refund.Status = RefundStatusRefunded) :
    c.HTTPRefundConfirmationCallback env r
      = tr ++ [Event.writeStatus 202, Event.onAcceptedRefund refund] := by
  unfold Client.HTTPRefundConfirmationCallback
  cases hpf : r.ParseForm with
  | mk r' e =>
    rw [hpf] at hp hg
    simp only at hp hg
    subst hp
    simp only [hg, ht, if_false, hl, hq, if_true]
    rfl

/-- Trace of the Gin refund handler on any request from which it extracts the token t (the
form parses and token has the single value t) and whose lookup returns an accepted or
refunded refund: the calls of the lookup, then the callback, then the write of the status
200 that ctx.Status had recorded. -/
theorem ginRefund_accepts (env : Env) (c : Client) (r : Request) (t : GoString)
    (tr : List Event) (refund : RefundStatus) (hp : r.ParseForm.2 = none)
    (hg : indexNilable r.ParseForm.1.Form (str "token") = some [t])
    (hl : c.GetRefundStatus env t = (tr, Result.ok refund))
    (hq : refund.Status = RefundStatusAccepted ∨ refund.Status = RefundStatusRefunded) :
    c.GinRefundConfirmationCallback env r
      = tr ++ [Event.onAcceptedRefund refund, Event.writeStatus 200] := by
  unfold Client.GinRefundConfirmationCallback
  cases hpf : r.ParseForm with
  | mk r' e =>
    rw [hpf] at hp hg
    simp only at hp hg
    subst hp
    simp only [hg, hl, hq, if_true]
    exact ginServe_status_call tr StatusOK _

/-- Claim C11 as stated fails for the two HTTP handlers: the call w.WriteHeader writes the
success status code before the callback is invoked. On the notification carrying the token
abc, whose lookup returns a payed order (an accepted refund), the effects of the HTTP order
handler are the write of status 200 and then the callback, those of the HTTP refund handler
the write of status 202 and then the callback, and in both traces the write stands before
the callback. -/
theorem callback_after_status_counterexample :
    effects (sampleClient.HTTPOrderConfirmationCallback
      (sampleEnv 200 (str "200 OK") 2 (str "accepted")) (notification [str "abc"]))
      = [Event.writeStatus 200, Event.onAcceptedOrder (sampleOrder 2)] ∧
    List.indexOf (Event.writeStatus 200) (sampleClient.HTTPOrderConfirmationCallback
      (sampleEnv 200 (str "200 OK") 2 (str "accepted")) (notification [str "abc"]))
      < List.indexOf (Event.onAcceptedOrder (sampleOrder 2))
        (sampleClient.HTTPOrderConfirmationCallback
          (sampleEnv 200 (str "200 OK") 2 (str "accepted")) (notification [str "abc"])) ∧
    effects (sampleClient.HTTPRefundConfirmationCallback
      (sampleEnv 200 (str "200 OK") 2 (str "accepted")) (notification [str "abc"]))
      = [Event.writeStatus 202, Event.onAcceptedRefund (sampleRefund (str "accepted"))] ∧
    List.indexOf (Event.writeStatus 202) (sampleClient.HTTPRefundConfirmationCallback
      (sampleEnv 200 (str "200 OK") 2 (str "accepted")) (notification [str "abc"]))
      < List.indexOf (Event.onAcceptedRefund (sampleRefund (str "accepted")))
        (sampleClient.HTTPRefundConfirmationCallback
          (sampleEnv 200 (str "200 OK") 2 (str "accepted")) (notification [str "abc"])) := by
  refine ⟨?_, ?_, ?_, ?_⟩ <;> decide

/-- Claim C11, amended. Whenever a handler has extracted a token from the request and the
lookup of this token has returned an entity whose status qualifies (a payed order, an
accepted or refunded refund), the effects of the handler are exactly two: the callback,
invoked once with the resolved entity, and the write of the success status code. In the two
Gin handlers the callback comes first and the status code (202 for orders, 200 for refunds)
is written after it, ctx.Status having only recorded the code; in the two HTTP handlers
w.WriteHeader writes the status code (200 for orders, 202 for refunds) first and the
callback comes after it. -/
theorem acceptance_effects_order (env : Env) (c : Client) (r : Request) (t : GoString) :
    (∀ (tr : List Event) (o : Order), c.GetOrder env t = (tr, Result.ok o) →
      o.Status = OrderStatusPayed →
      (r.ParseForm.2 = none → (r.ParseForm.1.Form.getD []).Get (str "token") = t → t ≠ [] →
        effects (c.HTTPOrderConfirmationCallback env r)
          = [Event.writeStatus 200, Event.onAcceptedOrder o]) ∧
      (indexNilable r.PostForm (str "token") = some [t] →
        effects (c.GinOrderConfirmationCallback env r)
          = [Event.onAcceptedOrder o, Event.writeStatus 202])) ∧
    (∀ (tr : List Event) (refund : RefundStatus),
      c.GetRefundStatus env t = (tr, Result.ok refund) →
      (refund.Status = RefundStatusAccepted ∨ refund.Status = RefundStatusRefunded) →
      (r.ParseForm.2 = none → (r.ParseForm.1.Form.getD []).Get (str "token") = t → t ≠ [] →
        effects (c.HTTPRefundConfirmationCallback env r)
          = [Event.writeStatus 202, Event.onAcceptedRefund refund]) ∧
      (r.ParseForm.2 = none → indexNilable r.ParseForm.1.Form (str "token") = some [t] →
        effects (c.GinRefundConfirmationCallback env r)
          = [Event.onAcceptedRefund refund, Event.writeStatus 200])) := by
  constructor
  · intro tr o hl hq
    have he : effects tr = [] := by
      have h := getOrder_effects env c t
      rw [hl] at h
      exact h
    constructor
    · intro hp hg ht
      rw [httpOrder_accepts env c r t tr o hp hg ht hl hq, effects_append, he]
      rfl
    · intro hr
      rw [ginOrder_resolved env c r t tr o hr hl, if_pos hq, effects_append, he]
      rfl
  · intro tr refund hl hq
    have he : effects tr = [] := by
      have h := getRefundStatus_effects env c t
      rw [hl] at h
      exact h
    constructor
    · intro hp hg ht
      rw [httpRefund_accepts env c r t tr refund hp hg ht hl hq, effects_append, he]
      rfl
    · intro hp hg
      rw [ginRefund_accepts env c r t tr refund hp hg hl hq, effects_append, he]
      rfl

/-- Witness of the amended claim C11: the request carrying the token abc, on which ParseForm
has run, with a payed order and an accepted refund behind the token. -/
theorem acceptance_effects_order_witness :
    effects (sampleClient.HTTPOrderConfirmationCallback
      (sampleEnv 200 (str "200 OK") 2 (str "accepted")) (notification [str "abc"]).ParseForm.1)
      = [Event.writeStatus 200, Event.onAcceptedOrder (sampleOrder 2)] ∧
    effects (sampleClient.GinOrderConfirmationCallback
      (sampleEnv 200 (str "200 OK") 2 (str "accepted")) (notification [str "abc"]).ParseForm.1)
      = [Event.onAcceptedOrder (sampleOrder 2), Event.writeStatus 202] ∧
    effects (sampleClient.HTTPRefundConfirmationCallback
      (sampleEnv 200 (str "200 OK") 2 (str "accepted")) (notification [str "abc"]).ParseForm.1)
      = [Event.writeStatus 202, Event.onAcceptedRefund (sampleRefund (str "accepted"))] ∧
    effects (sampleClient.GinRefundConfirmationCallback
      (sampleEnv 200 (str "200 OK") 2 (str "accepted")) (notification [str "abc"]).ParseForm.1)
      = [Event.onAcceptedRefund (sampleRefund (str "accepted")), Event.writeStatus 200] :=
  have h := acceptance_effects_order (sampleEnv 200 (str "200 OK") 2 (str "accepted"))
    sampleClient (notification [str "abc"]).ParseForm.1 (str "abc")
  have ho := h.1
    (sampleClient.GetOrder (sampleEnv 200 (str "200 OK") 2 (str "accepted")) (str "abc")).1
    (sampleOrder 2) (by decide) (by decide)
  have hr := h.2
    (sampleClient.GetRefundStatus (sampleEnv 200 (str "200 OK") 2 (str "accepted"))
      (str "abc")).1
    (sampleRefund (str "accepted")) (by decide) (by decide)
  ⟨ho.1 (by decide) (by decide) (by decide), ho.2 (by decide),
    hr.1 (by decide) (by decide) (by decide), hr.2 (by decide) (by decide)⟩

/-! ## The canonical string is not an injective encoding (request.go) -/

/-- Claim C12. The string signData hashes does not determine the parameter set: the maps
with the single entry a = bc and with the single entry ab = c are different parameter sets
(neither is a rearrangement of the other), both are hashed as the string abc, and signData
returns the same signature for them under every HMAC function and every client, so under
every secret. -/
theorem signData_not_injective :
    GoMap.WF [(str "a", Value.string (str "bc"))] ∧
    GoMap.WF [(str "ab", Value.string (str "c"))] ∧
    ¬ List.Perm [(str "a", Value.string (str "bc"))] [(str "ab", Value.string (str "c"))] ∧
    (str "a" ++ (Value.string (str "bc")).format = str "abc" ∧
      str "ab" ++ (Value.string (str "c")).format = str "abc") ∧
    ∀ (H : Hmac) (c : Client),
      c.signData H [(str "a", Value.string (str "bc"))]
        = c.signData H [(str "ab", Value.string (str "c"))] ∧
      c.signData H [(str "a", Value.string (str "bc"))]
        = hexEncode (H c.SecretKey (str "abc")) := by
  refine ⟨by decide, by decide, ?_, ⟨by decide, by decide⟩, fun H c => ⟨rfl, rfl⟩⟩
  intro h
  have hm := h.subset (List.mem_singleton_self _)
  revert hm
  decide

end Flow
